import Mathlib

/-!
Verification development for the MYCRM repository's CSV bulk-import and
deduplication core.  The JavaScript sources (`js/customers.js`,
`js/csv-matching.js`, `csv-import.js`, `lib/metrics.js`) are shallowly
embedded below: pure functions become Lean functions, the Firestore-backed
stateful code becomes explicit state passing over a `Store` value, JS
numbers carrying currency amounts become `ℚ`, and JS `Date` values become
calendar-date triples with the engine's field-normalisation (rollover)
semantics made explicit.
-/

namespace MYCRM

/-! ### JavaScript string primitives used by the sources -/

/-- The whitespace class used by the JS string functions (`trim`, `\s`),
restricted to the ASCII range actually exercised by the CSV pipeline. -/
def jsSpace (c : Char) : Bool :=
  c == ' ' || c == '\t' || c == '\n' || c == '\r' || c.val == 11 || c.val == 12

/-- `String.prototype.trim`: drop leading and trailing whitespace. -/
def jsTrimL (l : List Char) : List Char :=
  ((l.dropWhile jsSpace).reverse.dropWhile jsSpace).reverse

def jsTrim (s : String) : String := ⟨jsTrimL s.data⟩

/-- `String.prototype.toLowerCase` on the ASCII range. -/
def jsLower (s : String) : String := ⟨s.data.map Char.toLower⟩

/-- One step of `replace(/\s+/g, ' ')`: collapse each run of whitespace
characters to a single space. -/
def squeezeSpacesL : List Char → List Char
  | [] => []
  | [c] => [if jsSpace c then ' ' else c]
  | c1 :: c2 :: rest =>
    if jsSpace c1 && jsSpace c2 then squeezeSpacesL (c2 :: rest)
    else (if jsSpace c1 then ' ' else c1) :: squeezeSpacesL (c2 :: rest)

def squeezeSpaces (s : String) : String := ⟨squeezeSpacesL s.data⟩

/-- JS `<` on strings: lexicographic comparison by UTF-16 code unit
(equivalently, code point for the BMP strings this system handles). -/
def strLtL : List Char → List Char → Bool
  | [], [] => false
  | [], _ :: _ => true
  | _ :: _, [] => false
  | a :: as, b :: bs =>
    if a.val < b.val then true
    else if a.val == b.val then strLtL as bs
    else false

def strLe (a b : String) : Bool := !(strLtL b.data a.data)

/-- `substring(0, n)`: the first `n` characters. -/
def strTake (n : Nat) (s : String) : String := ⟨s.data.take n⟩

/-- The Firestore query upper-bound sentinel `""`. -/
def uF8FF : String := ⟨[Char.ofNat 0xf8ff]⟩

def startsWithL : List Char → List Char → Bool
  | [], _ => true
  | _ :: _, [] => false
  | a :: as, b :: bs => a == b && startsWithL as bs

def infixOfL (needle : List Char) : List Char → Bool
  | [] => needle.isEmpty
  | c :: rest => startsWithL needle (c :: rest) || infixOfL needle rest

/-- Substring containment, for `String.prototype.includes`. -/
def jsIncludes (hay needle : String) : Bool :=
  infixOfL needle.data hay.data

/-! ### JS `Date` as a calendar date with rollover normalisation

The import pipeline only ever builds `Date` values at local midnight via
`new Date(y, m, d)` / `setFullYear` / `setDate`, so a date is a
year/month/day triple.  JS normalises out-of-range month/day fields by
rolling them over into adjacent months and years; `jsMkDate` reproduces
that normalisation. -/

structure CDate where
  y : Int
  m : Nat
  d : Nat
deriving DecidableEq, Repr

def isLeap (y : Int) : Bool :=
  (y % 4 == 0 && y % 100 != 0) || (y % 400 == 0)

def daysInMonth (y : Int) (m : Nat) : Nat :=
  match m with
  | 1 => 31 | 2 => if isLeap y then 29 else 28 | 3 => 31 | 4 => 30
  | 5 => 31 | 6 => 30 | 7 => 31 | 8 => 31
  | 9 => 30 | 10 => 31 | 11 => 30 | 12 => 31
  | _ => 30

/-- Normalise an out-of-range day-of-month by borrowing/carrying whole
months, as the JS engine does.  The fuel bounds the number of month
steps; every call site stays far below it. -/
def normDay : Nat → Int → Nat → Int → CDate
  | 0, y, m, d => ⟨y, m, d.toNat⟩
  | fuel + 1, y, m, d =>
    if d < 1 then
      let y' : Int := if m = 1 then y - 1 else y
      let m' : Nat := if m = 1 then 12 else m - 1
      normDay fuel y' m' (d + daysInMonth y' m')
    else if d > (daysInMonth y m : Int) then
      let y' : Int := if m = 12 then y + 1 else y
      let m' : Nat := if m = 12 then 1 else m + 1
      normDay fuel y' m' (d - daysInMonth y m)
    else ⟨y, m, d.toNat⟩

/-- `new Date(y, mo, d)` with `mo` 0-based and possibly out of range,
`d` 1-based and possibly out of range: JS field normalisation. -/
def jsMkDate (y mo d : Int) : CDate :=
  let y1 : Int := y + mo.fdiv 12
  let m1 : Nat := (mo.fmod 12).toNat + 1
  normDay 60 y1 m1 d

/-- `addOneYear` from csv-import.js: copy the date and `setFullYear(y+1)`.
The engine then re-normalises the (unchanged) month/day fields. -/
def addOneYear (dt : CDate) : CDate :=
  jsMkDate (dt.y + 1) ((dt.m : Int) - 1) (dt.d : Int)

/-- `subtractOneYear` from csv-import.js. -/
def subtractOneYear (dt : CDate) : CDate :=
  jsMkDate (dt.y - 1) ((dt.m : Int) - 1) (dt.d : Int)

/-- `d.setDate(d.getDate() + n)`: shift a date by `n` days. -/
def jsAddDays (dt : CDate) (n : Int) : CDate :=
  jsMkDate dt.y ((dt.m : Int) - 1) ((dt.d : Int) + n)

/-- Comparison of two midnight `Date` values (`<=` on epoch millis). -/
def CDate.leB (a b : CDate) : Bool :=
  if a.y != b.y then decide (a.y < b.y)
  else if a.m != b.m then decide (a.m < b.m)
  else decide (a.d ≤ b.d)

/-! ### csv-matching.js : `stringSimilarity` (claim C5) -/

/-- The bigram set built by `getBigrams` inside `stringSimilarity`:
all two-character substrings, as a duplicate-free list (the JS `Set`). -/
def getBigrams (s : String) : List String :=
  (((List.range (s.length - 1)).map
      (fun i => (⟨(s.data.drop i).take 2⟩ : String)))).dedup

/-- `stringSimilarity` from csv-matching.js, line for line:
empty-check, identity check, degenerate bigram cases, Dice coefficient. -/
def stringSimilarity (str1 str2 : String) : ℚ :=
  if str1 = "" || str2 = "" then 0
  else if str1 = str2 then 1
  else
    let bigrams1 := getBigrams str1
    let bigrams2 := getBigrams str2
    if bigrams1.isEmpty && bigrams2.isEmpty then 1
    else if bigrams1.isEmpty || bigrams2.isEmpty then 0
    else
      let intersection := bigrams1.countP (fun x => bigrams2.contains x)
      (2 * intersection : ℚ) / ((bigrams1.length : ℚ) + (bigrams2.length : ℚ))

/-- The bigram set as a `Finset`, for stating the Dice coefficient the way
the specification does (over *sets* of bigrams). -/
def bigramSet (s : String) : Finset String := (getBigrams s).toFinset

/-! ### JS numbers carrying currency amounts

Premiums are decimal fractions produced by `parseFloat`; we embed them as
unreduced integer fractions (numerator, positive denominator) whose
operations are plain integer arithmetic, mirroring the exact arithmetic
the float code performs on these small decimal values.  `toRat` maps a
value to the rational it denotes, for use in specification statements. -/

structure JNum where
  num : Int
  den : Nat
deriving DecidableEq, Repr

def JNum.toRat (a : JNum) : ℚ := (a.num : ℚ) / (a.den : ℚ)

def JNum.sub (a b : JNum) : JNum :=
  if a.den == b.den then ⟨a.num - b.num, a.den⟩
  else ⟨a.num * b.den - b.num * a.den, a.den * b.den⟩

def JNum.add (a b : JNum) : JNum :=
  if a.den == b.den then ⟨a.num + b.num, a.den⟩
  else ⟨a.num * b.den + b.num * a.den, a.den * b.den⟩

def JNum.abs (a : JNum) : JNum := ⟨|a.num|, a.den⟩

/-- `a < b` by cross-multiplication (denominators are positive). -/
def JNum.ltB (a b : JNum) : Bool := a.num * b.den < b.num * a.den

def JNum.zero : JNum := ⟨0, 1⟩

/-- The `0.01` premium-comparison tolerance. -/
def hundredth : JNum := ⟨1, 100⟩

/-! ### csv-import.js : field normalisation and row validation -/

/-- `\w` character class on the ASCII range. -/
def jsWordChar (c : Char) : Bool :=
  c.isAlpha || c.isDigit || c == '_'

/-- The synonym table of `normalizePolicyType`, in source order. -/
def policyTypeMappings : List (String × List String) :=
  [("Workers Compensation", ["wc", "workers comp", "workers compensation", "work comp"]),
   ("General Liability", ["gl", "general liability"]),
   ("Tailored Protection Policy", ["tpp", "tailored protection policy"]),
   ("Commercial Package Policy", ["cpp", "commercial package policy"]),
   ("BOP", ["bop", "business owners policy", "business owner policy"]),
   ("Commercial Auto", ["commercial auto", "comm auto", "ca"]),
   ("Personal Auto", ["personal auto", "pa"]),
   ("Homeowners", ["homeowners", "ho", "home"]),
   ("Dwelling Fire", ["dwelling fire", "df", "dp", "dwelling"]),
   ("Life", ["life", "life insurance"]),
   ("Health", ["health", "health insurance"])]

/-- `normalizePolicyType` from csv-import.js: lowercase, trim, strip
non-word/non-space characters, collapse whitespace, then look the result
up in the synonym table. -/
def normalizePolicyType (rawType : String) : Option String :=
  if rawType = "" then none
  else
    let normalized :=
      squeezeSpaces ⟨(jsTrimL (jsLower rawType).data).filter
        (fun c => jsWordChar c || jsSpace c)⟩
    (policyTypeMappings.find? (fun m => m.2.contains normalized)).map (·.1)

def digitsVal (ds : List Char) : Nat :=
  ds.foldl (fun acc c => acc * 10 + (c.toNat - 48)) 0

/-- `parseFloat`: skip leading whitespace, optional sign, decimal
mantissa, optional exponent; `none` models `NaN`. -/
def jsParseFloat (s : String) : Option JNum :=
  let l := s.data.dropWhile jsSpace
  let signAndRest : Int × List Char :=
    match l with
    | '-' :: rest => (-1, rest)
    | '+' :: rest => (1, rest)
    | _ => (1, l)
  let sign := signAndRest.1
  let l1 := signAndRest.2
  let intDs := l1.takeWhile Char.isDigit
  let l2 := l1.dropWhile Char.isDigit
  let fracAndRest : List Char × List Char :=
    match l2 with
    | '.' :: rest => (rest.takeWhile Char.isDigit, rest.dropWhile Char.isDigit)
    | _ => ([], l2)
  let fracDs := fracAndRest.1
  let l3 := fracAndRest.2
  if intDs.isEmpty && fracDs.isEmpty then none
  else
    let mant : Int := sign * (digitsVal (intDs ++ fracDs) : Int)
    let den : Nat := 10 ^ fracDs.length
    let expPart : Bool × Int × List Char :=
      match l3 with
      | 'e' :: rest | 'E' :: rest =>
        match rest with
        | '-' :: r2 => (!(r2.takeWhile Char.isDigit).isEmpty, -1, r2.takeWhile Char.isDigit)
        | '+' :: r2 => (!(r2.takeWhile Char.isDigit).isEmpty, 1, r2.takeWhile Char.isDigit)
        | r2 => (!(r2.takeWhile Char.isDigit).isEmpty, 1, r2.takeWhile Char.isDigit)
      | _ => (false, 1, [])
    if expPart.1 then
      let e := digitsVal expPart.2.2
      if expPart.2.1 ≥ 0 then some ⟨mant * ((10 ^ e : Nat) : Int), den⟩
      else some ⟨mant, den * 10 ^ e⟩
    else some ⟨mant, den⟩

/-- `parsePremium` from csv-import.js: empty is null; strip `$`, commas
and whitespace; parse as float; reject NaN and negative values. -/
def parsePremium (premiumStr : String) : Option JNum :=
  if premiumStr = "" then none
  else
    let cleaned : String :=
      ⟨premiumStr.data.filter (fun c => !(c == '$' || c == ',' || jsSpace c))⟩
    match jsParseFloat cleaned with
    | none => none
    | some q => if q.num < 0 then none else some q

def splitOnCharAux (sep : Char) : List Char → List Char → List String
  | [], acc => [⟨acc.reverse⟩]
  | c :: rest, acc =>
    if c == sep then ⟨acc.reverse⟩ :: splitOnCharAux sep rest []
    else splitOnCharAux sep rest (c :: acc)

/-- `String.split` on a single separator character (the shape the three
date regexes recognise). -/
def splitOnChar (sep : Char) (s : String) : List String :=
  splitOnCharAux sep s.data []

def allDigits (s : String) : Bool :=
  !s.data.isEmpty && s.data.all Char.isDigit

def digitsNat (s : String) : Nat := digitsVal s.data

/-- The reconstruct-and-compare validation shared by the three strict
date formats: build `new Date(year, month-1, day)` and accept only if the
echoed fields equal the parsed numbers (rejecting rollovers). -/
def tryFields (year month day : Nat) : Option CDate :=
  let date := jsMkDate (year : Int) ((month : Int) - 1) (day : Int)
  if date.y == (year : Int) && date.m == month && date.d == day then some date
  else none

/-- `parseDate` from csv-import.js.  The three strict formats
(`MM/DD/YYYY`, `YYYY-MM-DD`, `MM-DD-YYYY`) are matched field by field;
the final fallback to the engine's general `new Date(string)` parser is
an external, implementation-defined collaborator and is therefore a
parameter `native`. -/
def parseDate (native : String → Option CDate) (dateStr : String) : Option CDate :=
  if dateStr = "" then none
  else
    let t := jsTrim dateStr
    if t = "" then none
    else
      let trySlash : Option CDate :=
        match splitOnChar '/' t with
        | [a, b, c] =>
          if allDigits a && a.length ≤ 2 && allDigits b && b.length ≤ 2 &&
             allDigits c && c.length == 4
          then tryFields (digitsNat c) (digitsNat a) (digitsNat b) else none
        | _ => none
      match trySlash with
      | some d => some d
      | none =>
        let tryIso : Option CDate :=
          match splitOnChar '-' t with
          | [a, b, c] =>
            if allDigits a && a.length == 4 && allDigits b && b.length ≤ 2 &&
               allDigits c && c.length ≤ 2
            then tryFields (digitsNat a) (digitsNat b) (digitsNat c) else none
          | _ => none
        match tryIso with
        | some d => some d
        | none =>
          let tryDash : Option CDate :=
            match splitOnChar '-' t with
            | [a, b, c] =>
              if allDigits a && a.length ≤ 2 && allDigits b && b.length ≤ 2 &&
                 allDigits c && c.length == 4
              then tryFields (digitsNat c) (digitsNat a) (digitsNat b) else none
            | _ => none
          match tryDash with
          | some d => some d
          | none => native t

/-- The raw cell values of one row after header-mapping extraction
(`data` in `processCSVRow`); unmapped fields are the empty string. -/
structure RawRowData where
  insuredName : String
  address : String
  city : String
  state : String
  zip : String
  policyType : String
  effectiveDate : String
  expirationDate : String
  insuranceCompany : String
  premium : String
deriving DecidableEq, Repr

def jsUpper (s : String) : String := ⟨s.data.map Char.toUpper⟩

/-- The validated/normalised record of a valid row. -/
structure RowData where
  insuredName : String
  address : String
  city : String
  state : String
  zip : String
  policyTypeNormalized : String
  rawPolicyType : String
  effectiveDate : CDate
  expirationDate : CDate
  insuranceCompany : String
  premium : JNum
deriving DecidableEq, Repr

/-- The per-row result record of the Row Validator. -/
structure ProcessedRow where
  rowIndex : Nat
  valid : Bool
  errors : List String
  data : Option RowData
deriving DecidableEq, Repr

def lookupAssoc (l : List (String × String)) (k : String) : Option String :=
  (l.find? (fun p => p.1 == k)).map (·.2)

/-- `data[field] = row[csvHeaders.indexOf(header)]`, empty for unmapped
fields, missing headers and short rows. -/
def cellAt (csvHeaders row : List String) (h : String) : String :=
  match csvHeaders.indexOf? h with
  | some i => if i < row.length then row.getD i "" else ""
  | none => ""

def extractField (headerMapping : List (String × String))
    (csvHeaders row : List String) (field : String) : String :=
  match lookupAssoc headerMapping field with
  | some h => cellAt csvHeaders row h
  | none => ""

def extractRowData (headerMapping : List (String × String))
    (csvHeaders row : List String) : RawRowData :=
  { insuredName := extractField headerMapping csvHeaders row "insuredName"
    address := extractField headerMapping csvHeaders row "address"
    city := extractField headerMapping csvHeaders row "city"
    state := extractField headerMapping csvHeaders row "state"
    zip := extractField headerMapping csvHeaders row "zip"
    policyType := extractField headerMapping csvHeaders row "policyType"
    effectiveDate := extractField headerMapping csvHeaders row "effectiveDate"
    expirationDate := extractField headerMapping csvHeaders row "expirationDate"
    insuranceCompany := extractField headerMapping csvHeaders row "insuranceCompany"
    premium := extractField headerMapping csvHeaders row "premium" }

/-- The carrier test of `processCSVRow`: the insurance-company cell is
truthy and contains "progressive" case-insensitively. -/
def isProgressive (insuranceCompany : String) : Bool :=
  insuranceCompany != "" && jsIncludes (jsLower insuranceCompany) "progressive"

/-- The date-resolution step of `processCSVRow` (lines 312-341 of
csv-import.js): resolved effective date, resolved expiration date, and
the date errors pushed by this step. -/
def resolveDates (isProg : Bool) (eff0 exp0 : Option CDate) :
    Option CDate × Option CDate × List String :=
  if isProg then
    (eff0, exp0,
      if eff0.isNone || exp0.isNone then
        ["Progressive policy requires both effective and expiration dates"]
      else [])
  else
    match eff0, exp0 with
    | none, none => (none, none, ["Missing both effective and expiration dates"])
    | some e, none => (some e, some (addOneYear e), [])
    | none, some x => (some (subtractOneYear x), some x, [])
    | some e, some x => (some e, some x, [])

/-- The required-field, policy-type, carrier and premium checks of
`processCSVRow` (csv-import.js lines 265-309), producing their error
strings in source order. -/
def fieldErrors (data : RawRowData) : List String :=
  (if jsTrim data.insuredName == "" then ["Missing insured name"] else []) ++
  (if jsTrim data.address == "" then ["Missing address"] else []) ++
  (if jsTrim data.city == "" then ["Missing city"] else []) ++
  (if jsTrim data.state == "" then ["Missing state"] else []) ++
  (if jsTrim data.zip == "" then ["Missing zip"] else []) ++
  (match normalizePolicyType data.policyType with
   | none => ["Unknown policy type: " ++
       (if data.policyType == "" then "empty" else data.policyType)]
   | some _ => []) ++
  (if jsTrim data.insuranceCompany == "" then ["Missing insurance company"] else []) ++
  (match parsePremium data.premium with
   | none => ["Invalid premium: " ++
       (if data.premium == "" then "empty" else data.premium)]
   | some _ => [])

/-- `data.effectiveDate ? parseDate(data.effectiveDate) : null`. -/
def rawEffParse (native : String → Option CDate) (data : RawRowData) : Option CDate :=
  if data.effectiveDate == "" then none else parseDate native data.effectiveDate

/-- `data.expirationDate ? parseDate(data.expirationDate) : null`. -/
def rawExpParse (native : String → Option CDate) (data : RawRowData) : Option CDate :=
  if data.expirationDate == "" then none else parseDate native data.expirationDate

/-- The final `if (!effectiveDate || !expirationDate)` check of
`processCSVRow`: push `Invalid date(s)` unless a date error is already
present. -/
def finalDateCheck (eff exp : Option CDate) (errs : List String) : List String :=
  if eff.isNone || exp.isNone then
    (if errs.any (fun e => jsIncludes e "date") then errs else errs ++ ["Invalid date(s)"])
  else errs

/-- `processCSVRow` from the point where the extracted field map `data`
is in hand: validation and normalisation of one row. -/
def processCSVRowData (native : String → Option CDate) (data : RawRowData)
    (rowIndex : Nat) : ProcessedRow :=
  let dates := resolveDates (isProgressive data.insuranceCompany)
    (rawEffParse native data) (rawExpParse native data)
  let errs2 := finalDateCheck dates.1 dates.2.1 (fieldErrors data ++ dates.2.2)
  let valid := errs2.isEmpty
  let rdata : Option RowData :=
    if valid then
      match normalizePolicyType data.policyType, parsePremium data.premium,
          dates.1, dates.2.1 with
      | some pt, some pr, some eff, some exp =>
        some { insuredName := jsTrim data.insuredName
               address := jsTrim data.address
               city := jsTrim data.city
               state := jsUpper (jsTrim data.state)
               zip := jsTrim data.zip
               policyTypeNormalized := pt
               rawPolicyType := jsTrim data.policyType
               effectiveDate := eff
               expirationDate := exp
               insuranceCompany := jsTrim data.insuranceCompany
               premium := pr }
      | _, _, _, _ => none
    else none
  { rowIndex := rowIndex + 1, valid := valid, errors := errs2, data := rdata }

/-- `processCSVRow` from csv-import.js: extract the mapped cells, then
validate and normalise. -/
def processCSVRow (native : String → Option CDate) (row : List String)
    (headerMapping : List (String × String)) (csvHeaders : List String)
    (rowIndex : Nat) : ProcessedRow :=
  processCSVRowData native (extractRowData headerMapping csvHeaders row) rowIndex

/-! ### customers.js : the tenant's committed document store

Customers live in a collection (query order models Firestore's id order,
which for the sequentially allocated ids below is insertion order);
policies of all customers live in one pool carrying their parent
customer id, modelling the per-customer subcollections.  `nextId` is the
client-side auto-id generator backing `doc(collectionRef)`. -/

structure Address where
  street : String
  city : String
  state : String
  zip : String
deriving DecidableEq, Repr

structure Customer where
  id : Nat
  fullName : String
  firstName : Option String
  lastName : Option String
  phoneE164 : Option String
  phoneRaw : Option String
  email : Option String
  notes : Option String
  address : Address
  preferredLanguage : String
  tags : List String
  status : String
  source : String
  assignedToUid : Option String
  lastContactAt : Option String
  lastMessageSnippet : Option String
deriving DecidableEq, Repr

structure PolicyDoc where
  policyTypeNormalized : String
  rawPolicyType : String
  effectiveDate : CDate
  expirationDate : CDate
  insuranceCompany : String
  premium : JNum
  status : String
  agencyId : String
  customerId : Nat
deriving DecidableEq, Repr

structure Store where
  customers : List Customer
  policies : List PolicyDoc
  nextId : Nat
deriving DecidableEq, Repr

def Store.empty : Store := { customers := [], policies := [], nextId := 0 }

/-- The local `normalizeAddress` of customers.js (NOT the richer one of
csv-matching.js): lowercase, trim, collapse whitespace runs. -/
def normalizeAddressC (str : String) : String :=
  if str = "" then "" else squeezeSpaces (jsTrim (jsLower str))

/-- `findCustomerByNameAddressZip` from customers.js: a lexical-range
query on `fullName` over the first 20 characters of the trimmed name,
capped at 100 documents, then an in-memory scan for the first exact
match on the normalised (name, street, zip) triple. -/
def findCustomerByNameAddressZip (s : Store) (insuredName address zip : String) :
    Option Customer :=
  let normalizedName := normalizeAddressC insuredName
  let normalizedAddress := normalizeAddressC address
  let normalizedZip := normalizeAddressC zip
  let searchName := strTake 20 (jsTrim insuredName)
  let q := (s.customers.filter
    (fun c => strLe searchName c.fullName && strLe c.fullName (searchName ++ uF8FF))).take 100
  q.find? (fun c =>
    normalizeAddressC c.fullName == normalizedName &&
    normalizeAddressC c.address.street == normalizedAddress &&
    normalizeAddressC c.address.zip == normalizedZip)

/-- The per-policy duplicate test inside `findExistingPolicy`: normalized
type, calendar day of the effective date (the `YYYY-MM-DD` key), carrier
after trim+lowercase, premium within the 0.01 tolerance. -/
def policyMatches (data : PolicyDoc) (policyTypeNormalized : String) (eff : CDate)
    (insuranceCompany : String) (premium : JNum) : Bool :=
  data.policyTypeNormalized == policyTypeNormalized &&
  data.effectiveDate == eff &&
  jsLower (jsTrim data.insuranceCompany) == jsLower (jsTrim insuranceCompany) &&
  JNum.ltB (JNum.abs (JNum.sub data.premium premium)) hundredth

/-- `findExistingPolicy` from customers.js: scan the customer's policy
subcollection for the first duplicate. -/
def findExistingPolicy (s : Store) (customerId : Nat) (pt : String) (eff : CDate)
    (company : String) (premium : JNum) : Option PolicyDoc :=
  (s.policies.filter (fun p => p.customerId == customerId)).find?
    (fun p => policyMatches p pt eff company premium)

/-! ### customers.js : `importCSVData` -/

inductive BatchOp where
  | updateCustomer (id : Nat) (street city state zip : String)
  | setCustomer (docu : Customer)
  | setPolicy (docu : PolicyDoc)
deriving DecidableEq, Repr

def applyOp (s : Store) : BatchOp → Store
  | .updateCustomer id street city state zip =>
    { s with customers := s.customers.map (fun c =>
        if c.id == id then { c with address := ⟨street, city, state, zip⟩ } else c) }
  | .setCustomer d =>
    if s.customers.any (fun c => c.id == d.id)
    then { s with customers := s.customers.map (fun c => if c.id == d.id then d else c) }
    else { s with customers := s.customers ++ [d] }
  | .setPolicy p => { s with policies := s.policies ++ [p] }

/-- `batch.commit()`: atomically apply all queued operations. -/
def applyBatch (s : Store) (ops : List BatchOp) : Store := ops.foldl applyOp s

/-- The new-customer document queued by `importCSVData` (lines 547-570 of
customers.js). -/
def mkNewCustomer (id : Nat) (rd : RowData) : Customer :=
  { id := id
    fullName := rd.insuredName
    firstName := none
    lastName := none
    phoneE164 := none
    phoneRaw := none
    email := none
    notes := none
    address := ⟨rd.address, rd.city, rd.state, rd.zip⟩
    preferredLanguage := "en"
    tags := []
    status := "active"
    source := "CSV Import"
    assignedToUid := none
    lastContactAt := none
    lastMessageSnippet := none }

/-- The new-policy document queued by `importCSVData` (lines 602-615). -/
def mkNewPolicy (aid : String) (cid : Nat) (rd : RowData) : PolicyDoc :=
  { policyTypeNormalized := rd.policyTypeNormalized
    rawPolicyType := rd.rawPolicyType
    effectiveDate := rd.effectiveDate
    expirationDate := rd.expirationDate
    insuranceCompany := rd.insuranceCompany
    premium := rd.premium
    status := "active"
    agencyId := aid
    customerId := cid }

structure ImportResults where
  imported : Nat
  updated : Nat
  skipped : Nat
  errors : List (Nat × List String)
deriving DecidableEq, Repr

/-- The loop state of `importCSVData`, together with observation traces:
`commits` records the operation count of every committed batch,
`progressCalls` the arguments of every `progressCallback` invocation,
`allOps` every operation ever queued on any batch. -/
structure ImportState where
  store : Store
  batch : List BatchOp
  batchOpCount : Nat
  batchNumber : Nat
  results : ImportResults
  newCustomersCount : Nat
  newPoliciesPremium : JNum
  hasRenewals : Bool
  commits : List Nat
  progressCalls : List (Nat × Nat × Nat)
  allOps : List BatchOp
deriving DecidableEq, Repr

def BATCH_SIZE : Nat := 400

/-- Lines 652-664: commit when the pending count is within 10 of
`BATCH_SIZE`, else fire the progress callback every 10 rows. -/
def flushStep (totalBatches i : Nat) (st : ImportState) : ImportState :=
  if st.batchOpCount ≥ BATCH_SIZE - 10 then
    { st with store := applyBatch st.store st.batch
              commits := st.commits ++ [st.batchOpCount]
              progressCalls := st.progressCalls ++ [(st.batchNumber, totalBatches, i + 1)]
              batch := []
              batchOpCount := 0
              batchNumber := st.batchNumber + 1 }
  else if (i + 1) % 10 == 0 then
    { st with progressCalls := st.progressCalls ++ [(st.batchNumber, totalBatches, i + 1)] }
  else st

/-- One iteration of the per-row loop of `importCSVData` for valid row
`row` at loop index `i`.  `exc` is the exception oracle modelling an
unexpected store failure: `exc i = some msg` makes row `i`'s processing
raise `msg` (before any of the row's writes are queued), which the
source's per-row `catch` turns into an error entry plus a skip. -/
def processRow (exc : Nat → Option String) (aid : String) (now : CDate)
    (totalBatches i : Nat) (row : ProcessedRow) (st : ImportState) : ImportState :=
  match exc i with
  | some msg =>
    { st with results := { st.results with
        skipped := st.results.skipped + 1
        errors := st.results.errors ++ [(row.rowIndex, [msg])] } }
  | none =>
    match row.data with
    | none => st
    | some rd =>
      let found := findCustomerByNameAddressZip st.store rd.insuredName rd.address rd.zip
      let st1 :=
        match found with
        | some c =>
          { st with
              batch := st.batch ++ [BatchOp.updateCustomer c.id rd.address rd.city rd.state rd.zip]
              allOps := st.allOps ++ [BatchOp.updateCustomer c.id rd.address rd.city rd.state rd.zip]
              batchOpCount := st.batchOpCount + 1
              results := { st.results with updated := st.results.updated + 1 } }
        | none =>
          let docu := mkNewCustomer st.store.nextId rd
          { st with
              store := { st.store with nextId := st.store.nextId + 1 }
              batch := st.batch ++ [BatchOp.setCustomer docu]
              allOps := st.allOps ++ [BatchOp.setCustomer docu]
              batchOpCount := st.batchOpCount + 1
              results := { st.results with imported := st.results.imported + 1 }
              newCustomersCount := st.newCustomersCount + 1 }
      let cid := match found with | some c => c.id | none => st.store.nextId
      let st2 :=
        match findExistingPolicy st1.store cid rd.policyTypeNormalized rd.effectiveDate
            rd.insuranceCompany rd.premium with
        | none =>
          let renew := CDate.leB now rd.expirationDate &&
                       CDate.leB rd.expirationDate (jsAddDays now 30)
          { st1 with
              batch := st1.batch ++ [BatchOp.setPolicy (mkNewPolicy aid cid rd)]
              allOps := st1.allOps ++ [BatchOp.setPolicy (mkNewPolicy aid cid rd)]
              batchOpCount := st1.batchOpCount + 1
              hasRenewals := st1.hasRenewals || renew
              newPoliciesPremium :=
                if rd.premium.num == 0 then st1.newPoliciesPremium
                else JNum.add st1.newPoliciesPremium rd.premium }
        | some _ =>
          { st1 with results := { st1.results with skipped := st1.results.skipped + 1 } }
      flushStep totalBatches i st2

def runRows (exc : Nat → Option String) (aid : String) (now : CDate)
    (totalBatches : Nat) : List ProcessedRow → Nat → ImportState → ImportState
  | [], _, st => st
  | r :: rs, i, st =>
    runRows exc aid now totalBatches rs (i + 1) (processRow exc aid now totalBatches i r st)

def initImportState (s0 : Store) (invalidRows : List ProcessedRow) : ImportState :=
  { store := s0
    batch := []
    batchOpCount := 0
    batchNumber := 1
    results := { imported := 0, updated := 0, skipped := invalidRows.length,
                 errors := invalidRows.map (fun r => (r.rowIndex, r.errors)) }
    newCustomersCount := 0
    newPoliciesPremium := JNum.zero
    hasRenewals := false
    commits := []
    progressCalls := []
    allOps := [] }

/-- `importCSVData` from customers.js: partition valid/invalid rows,
drive the per-row loop, commit the remaining batch.  The concluding
metrics calls operate on the metrics document modelled separately; the
accumulated deltas they receive are the `newCustomersCount`,
`newPoliciesPremium` and `hasRenewals` fields of the final state. -/
def importCSVData (exc : Nat → Option String) (aid : String) (now : CDate)
    (s0 : Store) (processedRows : List ProcessedRow) : ImportState :=
  let validRows := processedRows.filter (fun r => r.valid && r.data.isSome)
  let invalidRows := processedRows.filter (fun r => !r.valid)
  let totalBatches := (validRows.length + (BATCH_SIZE / 2) - 1) / (BATCH_SIZE / 2)
  let stFinal := runRows exc aid now totalBatches validRows 0
    (initImportState s0 invalidRows)
  if stFinal.batchOpCount > 0 then
    { stFinal with
        store := applyBatch stFinal.store stFinal.batch
        commits := stFinal.commits ++ [stFinal.batchOpCount]
        progressCalls := stFinal.progressCalls ++
          [(stFinal.batchNumber, totalBatches, validRows.length)]
        batch := []
        batchOpCount := 0 }
  else stFinal

/-- The oracle for a run in which no store operation fails. -/
def noExc : Nat → Option String := fun _ => none

/-- The customer id a row resolves to: the matched customer's id, or the
id freshly allocated for the new customer document. -/
def resolvedCustomerId (s : Store) (rd : RowData) : Nat :=
  match findCustomerByNameAddressZip s rd.insuredName rd.address rd.zip with
  | some c => c.id
  | none => s.nextId

/-- The property claim C9 asserts of every queued customer creation:
status "active", source "CSV Import", null phone fields. -/
def customerCreateOk : BatchOp → Bool
  | .setCustomer d =>
    d.status == "active" && d.source == "CSV Import" &&
    d.phoneE164.isNone && d.phoneRaw.isNone
  | _ => true

/-- The new-customer documents among a list of queued operations. -/
def setCustomerDocs (ops : List BatchOp) : List Customer :=
  ops.filterMap (fun op => match op with | .setCustomer d => some d | _ => none)

/-- Case- and whitespace-insensitive string equality as the
specification's words describe it (collapse all whitespace runs, ignore
case): the comparison claim C4 attributes to the carrier check. -/
def wsInsensitiveEq (a b : String) : Bool :=
  squeezeSpaces (jsTrim (jsLower a)) == squeezeSpaces (jsTrim (jsLower b))

/-! ### Concrete rows and stores used by counterexamples and witnesses -/

def rdJohn : RowData :=
  { insuredName := "John Smith", address := "123 Main St", city := "Springfield",
    state := "IL", zip := "62701", policyTypeNormalized := "Personal Auto",
    rawPolicyType := "PA", effectiveDate := ⟨2024, 1, 15⟩,
    expirationDate := ⟨2025, 1, 15⟩, insuranceCompany := "Acme Ins",
    premium := ⟨100, 1⟩ }

/-- Same exact-normalized (name, street, zip) triple as `rdJohn`, but a
different policy (other line of business, other premium). -/
def rdJohnHo : RowData :=
  { rdJohn with
      policyTypeNormalized := "Homeowners"
      rawPolicyType := "HO"
      premium := ⟨200, 1⟩ }

def rdJane : RowData :=
  { insuredName := "Jane Doe", address := "9 Oak Ave", city := "Springfield",
    state := "IL", zip := "11111", policyTypeNormalized := "Homeowners",
    rawPolicyType := "HO", effectiveDate := ⟨2024, 1, 15⟩,
    expirationDate := ⟨2025, 1, 15⟩, insuranceCompany := "Acme Ins",
    premium := ⟨200, 1⟩ }

def rowJohn : ProcessedRow := { rowIndex := 1, valid := true, errors := [], data := some rdJohn }
def rowJohnHo : ProcessedRow := { rowIndex := 2, valid := true, errors := [], data := some rdJohnHo }
def rowJane : ProcessedRow := { rowIndex := 2, valid := true, errors := [], data := some rdJane }

def custJohn : Customer := mkNewCustomer 0 rdJohn
def polJohn : PolicyDoc := mkNewPolicy "ag" 0 rdJohn

/-- A committed store holding one customer with one policy, matched
exactly by `rowJohn` (which therefore queues a single update and no
policy write). -/
def storeC1 : Store := { customers := [custJohn], policies := [polJohn], nextId := 1 }

/-- 196 valid rows: the first queues 1 operation, the following 195
queue 2 each, so the pending count first reaches the `BATCH_SIZE - 10`
threshold at 391. -/
def rowsC1 : List ProcessedRow := rowJohn :: List.replicate 195 rowJane

def nowJun : CDate := ⟨2024, 6, 1⟩

/-- A failure oracle that makes the first valid row's processing raise. -/
def excBoom : Nat → Option String := fun i => if i == 0 then some "boom" else none

/-- The exact-normalized (name, street, zip) triple the duplicate-customer
lookup compares. -/
def tripleKey (rd : RowData) : String × String × String :=
  (normalizeAddressC rd.insuredName, normalizeAddressC rd.address, normalizeAddressC rd.zip)

/-- The row's own name lies inside the lexical range of its 20-character
search key (true of every realistic name; the range check is the store's
lexical-order query). -/
def selfRange (rd : RowData) : Bool :=
  strLe (strTake 20 (jsTrim rd.insuredName)) rd.insuredName &&
  strLe rd.insuredName (strTake 20 (jsTrim rd.insuredName) ++ uF8FF)

/-- The validated records of a row list. -/
def rowDatas (rows : List ProcessedRow) : List RowData :=
  rows.filterMap (fun r => r.data)

/-- The operations a run queues for a list of fresh rows: one customer
creation and one policy creation per row, with consecutive ids. -/
def expectedCreateOps (aid : String) : List RowData → Nat → List BatchOp
  | [], _ => []
  | rd :: rest, k =>
    BatchOp.setCustomer (mkNewCustomer k rd) :: BatchOp.setPolicy (mkNewPolicy aid k rd) ::
      expectedCreateOps aid rest (k + 1)

/-- The customer documents such a run commits. -/
def customersOf : List RowData → Nat → List Customer
  | [], _ => []
  | rd :: rest, k => mkNewCustomer k rd :: customersOf rest (k + 1)

/-- The policy documents such a run commits. -/
def policiesOf (aid : String) : List RowData → Nat → List PolicyDoc
  | [], _ => []
  | rd :: rest, k => mkNewPolicy aid k rd :: policiesOf aid rest (k + 1)

/-- A stored policy whose carrier differs from "Acme Ins" only by an
internal double space. -/
def polWs : PolicyDoc := { polJohn with insuranceCompany := "Acme  Ins" }

def storeWs : Store := { customers := [custJohn], policies := [polWs], nextId := 1 }

/-! ### lib/metrics.js : the tenant metrics document

The metrics functions wrap every store interaction in try/catch and
never rethrow.  Store failures are injected by an `MOracle` naming which
primitive kinds fail; a failing primitive raises, carrying the state as
mutated so far, and the surrounding catch swallows the error.  `MResult`
records what the caller observes: the exception propagated to it (always
`none` for these functions, by the theorems below) and the resulting
store state. -/

structure MetricsDoc where
  totalCustomers : Int
  totalPremium : JNum
  renewalsNext30Days : Nat
deriving DecidableEq, Repr

structure MPolicy where
  agencyId : String
  status : String
  expirationDate : CDate
deriving DecidableEq, Repr

structure MetricsStore where
  doc : Option MetricsDoc
  policies : List MPolicy
deriving DecidableEq, Repr

structure MOracle where
  getFails : Bool
  setFails : Bool
  updateFails : Bool
  queryFails : Bool
deriving DecidableEq, Repr

structure MResult where
  thrown : Option String
  store : MetricsStore
deriving DecidableEq, Repr

def zeroMetrics : MetricsDoc :=
  { totalCustomers := 0, totalPremium := JNum.zero, renewalsNext30Days := 0 }

/-- `ensureMetricsDoc`: `getDoc`, and `setDoc` with zeros if absent. -/
def ensureMetricsDoc (o : MOracle) (s : MetricsStore) :
    Except (String × MetricsStore) MetricsStore :=
  if o.getFails then .error ("getDoc failed", s)
  else
    match s.doc with
    | some _ => .ok s
    | none =>
      if o.setFails then .error ("setDoc failed", s)
      else .ok { s with doc := some zeroMetrics }

/-- The try-block of `incrementCustomerCount`: ensure the document, then
`updateDoc` with an atomic increment of `totalCustomers`. -/
def incrementCustomerCountBody (o : MOracle) (delta : Int) (s : MetricsStore) :
    Except (String × MetricsStore) MetricsStore :=
  match ensureMetricsDoc o s with
  | .error e => .error e
  | .ok s1 =>
    match s1.doc with
    | none => .error ("No document to update", s1)
    | some d =>
      if o.updateFails then .error ("updateDoc failed", s1)
      else .ok { s1 with doc := some { d with totalCustomers := d.totalCustomers + delta } }

/-- `incrementCustomerCount` from metrics.js: the try-block above with a
catch that logs and swallows every error. -/
def incrementCustomerCount (o : MOracle) (delta : Int) (s : MetricsStore) : MResult :=
  match incrementCustomerCountBody o delta s with
  | .ok s' => ⟨none, s'⟩
  | .error (_, s') => ⟨none, s'⟩

/-- The try-block of `updatePremium`: ensure the document, then
`updateDoc` with an atomic increment of `totalPremium`. -/
def updatePremiumBody (o : MOracle) (delta : JNum) (s : MetricsStore) :
    Except (String × MetricsStore) MetricsStore :=
  match ensureMetricsDoc o s with
  | .error e => .error e
  | .ok s1 =>
    match s1.doc with
    | none => .error ("No document to update", s1)
    | some d =>
      if o.updateFails then .error ("updateDoc failed", s1)
      else .ok { s1 with doc := some { d with totalPremium := JNum.add d.totalPremium delta } }

/-- `updatePremium` from metrics.js, with its catch-all. -/
def updatePremium (o : MOracle) (delta : JNum) (s : MetricsStore) : MResult :=
  match updatePremiumBody o delta s with
  | .ok s' => ⟨none, s'⟩
  | .error (_, s') => ⟨none, s'⟩

/-- The cross-customer renewal-window count of `recalculateRenewals`:
policies of this tenant, active, expiring within `[now, now + 30 days]`. -/
def renewalsCount (aid : String) (now : CDate) (policies : List MPolicy) : Nat :=
  (policies.filter (fun p =>
    p.agencyId == aid && p.status == "active" &&
    CDate.leB now p.expirationDate &&
    CDate.leB p.expirationDate (jsAddDays now 30))).length

/-- The try-block of `recalculateRenewals`: run the collection-group
query first, then ensure the document and overwrite the cached count. -/
def recalculateRenewalsBody (o : MOracle) (aid : String) (now : CDate)
    (s : MetricsStore) : Except (String × MetricsStore) (MetricsStore × Nat) :=
  if o.queryFails then .error ("query failed (missing index)", s)
  else
    let count := renewalsCount aid now s.policies
    match ensureMetricsDoc o s with
    | .error e => .error e
    | .ok s1 =>
      match s1.doc with
      | none => .error ("No document to update", s1)
      | some d =>
        if o.updateFails then .error ("updateDoc failed", s1)
        else .ok ({ s1 with doc := some { d with renewalsNext30Days := count } }, count)

/-- `recalculateRenewals` from metrics.js: catch-all returning `null`
(modelled as `none`) on failure. -/
def recalculateRenewals (o : MOracle) (aid : String) (now : CDate)
    (s : MetricsStore) : MResult × Option Nat :=
  match recalculateRenewalsBody o aid now s with
  | .ok (s', count) => (⟨none, s'⟩, some count)
  | .error (_, s') => (⟨none, s'⟩, none)

/-! ## Theorems -/

/-! ### Claim C5: `stringSimilarity` -/

theorem getBigrams_nodup (s : String) : (getBigrams s).Nodup :=
  List.nodup_dedup _

theorem length_getBigrams_eq_card (s : String) :
    (getBigrams s).length = (bigramSet s).card := by
  rw [bigramSet, List.toFinset_card_of_nodup (getBigrams_nodup s)]

theorem countP_contains_eq_card_inter (l1 l2 : List String) (h : l1.Nodup) :
    l1.countP (fun x => l2.contains x) = (l1.toFinset ∩ l2.toFinset).card := by
  induction l1 with
  | nil => simp
  | cons a t ih =>
    rw [List.nodup_cons] at h
    have iht := ih h.2
    rw [List.countP_cons, List.toFinset_cons]
    by_cases hc : a ∈ l2
    · have hc' : l2.contains a = true := by simpa using hc
      rw [hc', if_pos rfl]
      rw [Finset.insert_inter_of_mem (by simpa using hc),
        Finset.card_insert_of_not_mem (by simp [h.1]), iht]
    · have hc' : l2.contains a = false := by simpa using hc
      rw [hc']
      rw [Finset.insert_inter_of_not_mem (by simpa using hc), iht]
      simp

theorem bigramSet_nonempty_of_ne_nil {s : String} (h : getBigrams s ≠ []) :
    0 < (bigramSet s).card := by
  rw [← length_getBigrams_eq_card]
  cases hg : getBigrams s with
  | nil => exact absurd hg h
  | cons x t => simp

/-- C5, counterexample: the claim says two empty strings have similarity
1.0, but `stringSimilarity` returns 0 for them (the `!str1 || !str2`
guard fires before the identity check). -/
theorem stringSimilarity_both_empty :
    stringSimilarity "" "" = 0 ∧ stringSimilarity "" "" ≠ 1 := by
  refine ⟨rfl, ?_⟩
  rw [show stringSimilarity "" "" = 0 from rfl]
  norm_num

/-- C5 (as amended): `stringSimilarity` returns 0 whenever either string
is empty (including both empty), 1 for identical non-empty strings, 1
when both strings are non-empty but neither has a bigram (distinct
single-character strings), and otherwise the Dice coefficient
2·|A∩B|/(|A|+|B|) over the sets of character bigrams. -/
theorem stringSimilarity_spec (a b : String) :
    ((a = "" ∨ b = "") → stringSimilarity a b = 0) ∧
    (a ≠ "" → a = b → stringSimilarity a b = 1) ∧
    (a ≠ "" → b ≠ "" → getBigrams a = [] → getBigrams b = [] →
      stringSimilarity a b = 1) ∧
    (a ≠ "" → b ≠ "" → (getBigrams a ≠ [] ∨ getBigrams b ≠ []) →
      stringSimilarity a b =
        2 * ((bigramSet a ∩ bigramSet b).card : ℚ) /
          (((bigramSet a).card : ℚ) + ((bigramSet b).card : ℚ))) := by
  refine ⟨?_, ?_, ?_, ?_⟩
  · intro h
    rcases h with h | h <;> simp [stringSimilarity, h]
  · intro ha hab
    subst hab
    simp [stringSimilarity, ha]
  · intro ha hb h1 h2
    by_cases hab : a = b
    · subst hab; simp [stringSimilarity, ha]
    · simp [stringSimilarity, ha, hb, hab, h1, h2]
  · intro ha hb hne
    by_cases hab : a = b
    · subst hab
      have hcard : 0 < (bigramSet a).card := by
        rcases hne with h | h <;> exact bigramSet_nonempty_of_ne_nil h
      have hq : ((bigramSet a).card : ℚ) ≠ 0 := by
        exact_mod_cast Nat.pos_iff_ne_zero.mp hcard
      rw [Finset.inter_self]
      have hsim : stringSimilarity a a = 1 := by simp [stringSimilarity, ha]
      rw [hsim]
      field_simp
      ring
    · by_cases h1 : getBigrams a = []
      · have h2 : getBigrams b ≠ [] := by
          rcases hne with h | h
          · exact absurd h1 h
          · exact h
        have hset : bigramSet a = ∅ := by simp [bigramSet, h1]
        rw [hset]
        simp only [Finset.empty_inter, Finset.card_empty, Nat.cast_zero, mul_zero,
          zero_div]
        simp [stringSimilarity, ha, hb, hab, h1, h2]
      · by_cases h2 : getBigrams b = []
        · have hset : bigramSet b = ∅ := by simp [bigramSet, h2]
          rw [hset]
          simp only [Finset.inter_empty, Finset.card_empty, Nat.cast_zero, mul_zero,
            zero_div]
          simp [stringSimilarity, ha, hb, hab, h1, h2]
        · have hcnt := countP_contains_eq_card_inter (getBigrams a) (getBigrams b)
            (getBigrams_nodup a)
          have hla := length_getBigrams_eq_card a
          have hlb := length_getBigrams_eq_card b
          have key : stringSimilarity a b =
              (2 * ((getBigrams a).countP (fun x => (getBigrams b).contains x)) : ℚ) /
                (((getBigrams a).length : ℚ) + ((getBigrams b).length : ℚ)) := by
            simp [stringSimilarity, ha, hb, hab, h1, h2]
          rw [key, hcnt, hla, hlb]
          rfl

/-- Witness for C5: applying the amended characterisation at the classic
"night"/"nacht" pair, whose Dice coefficient is 1/4. -/
theorem stringSimilarity_spec_witness :
    stringSimilarity "night" "nacht" =
      2 * ((bigramSet "night" ∩ bigramSet "nacht").card : ℚ) /
        (((bigramSet "night").card : ℚ) + ((bigramSet "nacht").card : ℚ)) :=
  (stringSimilarity_spec "night" "nacht").2.2.2 (by decide) (by decide)
    (Or.inl (by decide))

/-! ### Claim C7: carrier-specific date resolution in `processCSVRow` -/

theorem mem_finalDateCheck {m : String} (eff exp : Option CDate) (errs : List String)
    (h : m ∈ errs) : m ∈ finalDateCheck eff exp errs := by
  unfold finalDateCheck
  split
  · split
    · exact h
    · exact List.mem_append_left _ h
  · exact h

theorem finalDateCheck_isEmpty_false {m : String} (eff exp : Option CDate)
    (errs : List String) (h : m ∈ errs) :
    (finalDateCheck eff exp errs).isEmpty = false := by
  have hm := mem_finalDateCheck eff exp errs h
  cases hfd : finalDateCheck eff exp errs with
  | nil => rw [hfd] at hm; cases hm
  | cons a t => simp

/-- C7 (confirmed): `processCSVRow` resolves dates by the carrier rule.
If the insurance-company cell contains "progressive" case-insensitively,
both dates must be present and parseable — a missing one invalidates the
row with the hard error, and a valid row's dates are exactly the parsed
ones (never computed).  For any other carrier, exactly one
present-and-parseable date makes the other computed by ±1 year, and a
row with neither date is invalid with the corresponding error. -/
theorem processCSVRow_carrier_dates (native : String → Option CDate)
    (data : RawRowData) (idx : Nat) :
    (isProgressive data.insuranceCompany = true →
      ((rawEffParse native data = none ∨ rawExpParse native data = none) →
        (processCSVRowData native data idx).valid = false ∧
        "Progressive policy requires both effective and expiration dates" ∈
          (processCSVRowData native data idx).errors) ∧
      (∀ e x rd, rawEffParse native data = some e → rawExpParse native data = some x →
        (processCSVRowData native data idx).data = some rd →
        rd.effectiveDate = e ∧ rd.expirationDate = x)) ∧
    (isProgressive data.insuranceCompany = false →
      (∀ e rd, rawEffParse native data = some e → rawExpParse native data = none →
        (processCSVRowData native data idx).data = some rd →
        rd.effectiveDate = e ∧ rd.expirationDate = addOneYear e) ∧
      (∀ x rd, rawEffParse native data = none → rawExpParse native data = some x →
        (processCSVRowData native data idx).data = some rd →
        rd.effectiveDate = subtractOneYear x ∧ rd.expirationDate = x) ∧
      (rawEffParse native data = none → rawExpParse native data = none →
        (processCSVRowData native data idx).valid = false ∧
        "Missing both effective and expiration dates" ∈
          (processCSVRowData native data idx).errors)) := by
  constructor
  · intro hp
    constructor
    · intro h
      have hd22 : (resolveDates (isProgressive data.insuranceCompany)
          (rawEffParse native data) (rawExpParse native data)).2.2 =
          ["Progressive policy requires both effective and expiration dates"] := by
        rw [hp]; unfold resolveDates
        rcases h with h | h <;> simp [h]
      have hmem : "Progressive policy requires both effective and expiration dates" ∈
          fieldErrors data ++ (resolveDates (isProgressive data.insuranceCompany)
            (rawEffParse native data) (rawExpParse native data)).2.2 := by
        rw [hd22]; simp
      exact ⟨finalDateCheck_isEmpty_false _ _ _ hmem, mem_finalDateCheck _ _ _ hmem⟩
    · intro e x rd he hx hd
      have hdts : resolveDates (isProgressive data.insuranceCompany)
          (rawEffParse native data) (rawExpParse native data) = (some e, some x, []) := by
        rw [hp]; unfold resolveDates; simp [he, hx]
      unfold processCSVRowData at hd
      rw [hdts] at hd
      simp only at hd
      split at hd
      · split at hd <;> simp_all <;> (subst hd; exact ⟨rfl, rfl⟩)
      · cases hd
  · intro hp
    refine ⟨?_, ?_, ?_⟩
    · intro e rd he hx hd
      have hdts : resolveDates (isProgressive data.insuranceCompany)
          (rawEffParse native data) (rawExpParse native data) =
          (some e, some (addOneYear e), []) := by
        rw [hp]; unfold resolveDates; simp [he, hx]
      unfold processCSVRowData at hd
      rw [hdts] at hd
      simp only at hd
      split at hd
      · split at hd <;> simp_all <;> (subst hd; exact ⟨rfl, rfl⟩)
      · cases hd
    · intro x rd he hx hd
      have hdts : resolveDates (isProgressive data.insuranceCompany)
          (rawEffParse native data) (rawExpParse native data) =
          (some (subtractOneYear x), some x, []) := by
        rw [hp]; unfold resolveDates; simp [he, hx]
      unfold processCSVRowData at hd
      rw [hdts] at hd
      simp only at hd
      split at hd
      · split at hd <;> simp_all <;> (subst hd; exact ⟨rfl, rfl⟩)
      · cases hd
    · intro he hx
      have hd22 : (resolveDates (isProgressive data.insuranceCompany)
          (rawEffParse native data) (rawExpParse native data)).2.2 =
          ["Missing both effective and expiration dates"] := by
        rw [hp]; unfold resolveDates; simp [he, hx]
      have hmem : "Missing both effective and expiration dates" ∈
          fieldErrors data ++ (resolveDates (isProgressive data.insuranceCompany)
            (rawEffParse native data) (rawExpParse native data)).2.2 := by
        rw [hd22]; simp
      exact ⟨finalDateCheck_isEmpty_false _ _ _ hmem, mem_finalDateCheck _ _ _ hmem⟩

/-- Witness for C7: a concrete Progressive row with a missing expiration
date is invalid with the hard error, and a concrete non-Progressive row
with only an effective date gets its expiration computed one year out. -/
theorem processCSVRow_carrier_dates_witness :
    (processCSVRowData (fun _ => none)
      ⟨"John Smith", "123 Main St", "Springfield", "IL", "62701", "PA",
        "01/15/2024", "", "Progressive Ins", "1200"⟩ 0).valid = false ∧
    "Progressive policy requires both effective and expiration dates" ∈
      (processCSVRowData (fun _ => none)
        ⟨"John Smith", "123 Main St", "Springfield", "IL", "62701", "PA",
          "01/15/2024", "", "Progressive Ins", "1200"⟩ 0).errors ∧
    ∀ rd, (processCSVRowData (fun _ => none)
        ⟨"John Smith", "123 Main St", "Springfield", "IL", "62701", "PA",
          "01/15/2024", "", "Acme Ins", "1200"⟩ 0).data = some rd →
      rd.effectiveDate = ⟨2024, 1, 15⟩ ∧ rd.expirationDate = addOneYear ⟨2024, 1, 15⟩ := by
  refine ⟨?_, ?_, ?_⟩
  · exact ((processCSVRow_carrier_dates (fun _ => none) _ 0).1 (by decide)).1
      (Or.inr (by decide)) |>.1
  · exact ((processCSVRow_carrier_dates (fun _ => none) _ 0).1 (by decide)).1
      (Or.inr (by decide)) |>.2
  · intro rd hd
    exact (((processCSVRow_carrier_dates (fun _ => none) _ 0).2 (by decide)).1)
      ⟨2024, 1, 15⟩ rd (by decide) (by decide) hd

/-! ### Claim C8: metrics updates never raise -/

/-- C8 (confirmed): `incrementCustomerCount`, `updatePremium` and
`recalculateRenewals` propagate no exception to their caller for any
input, store state or injected store failure; and when the
cross-customer renewals query fails, `recalculateRenewals` leaves the
metrics store untouched (the previously cached count survives) and
returns null. -/
theorem metrics_never_throw (o : MOracle) (delta : Int) (dq : JNum) (aid : String)
    (now : CDate) (s : MetricsStore) :
    (incrementCustomerCount o delta s).thrown = none ∧
    (updatePremium o dq s).thrown = none ∧
    ((recalculateRenewals o aid now s).1).thrown = none ∧
    (o.queryFails = true →
      ((recalculateRenewals o aid now s).1).store = s ∧
      (recalculateRenewals o aid now s).2 = none) := by
  refine ⟨?_, ?_, ?_, ?_⟩
  · cases h : incrementCustomerCountBody o delta s with
    | ok s' => simp [incrementCustomerCount, h]
    | error e => obtain ⟨m, s'⟩ := e; simp [incrementCustomerCount, h]
  · cases h : updatePremiumBody o dq s with
    | ok s' => simp [updatePremium, h]
    | error e => obtain ⟨m, s'⟩ := e; simp [updatePremium, h]
  · cases h : recalculateRenewalsBody o aid now s with
    | ok p => obtain ⟨s', c⟩ := p; simp [recalculateRenewals, h]
    | error e => obtain ⟨m, s'⟩ := e; simp [recalculateRenewals, h]
  · intro hq
    unfold recalculateRenewals recalculateRenewalsBody
    rw [hq]
    simp

/-- Witness for C8: with only the renewals query failing, the previously
cached metrics document (count 3) is left exactly in place, nothing is
thrown, and the function reports null. -/
theorem metrics_never_throw_witness :
    ((recalculateRenewals ⟨false, false, false, true⟩ "ag" ⟨2024, 6, 1⟩
        ⟨some ⟨5, ⟨100, 1⟩, 3⟩, []⟩).1).store = ⟨some ⟨5, ⟨100, 1⟩, 3⟩, []⟩ ∧
    ((recalculateRenewals ⟨false, false, false, true⟩ "ag" ⟨2024, 6, 1⟩
        ⟨some ⟨5, ⟨100, 1⟩, 3⟩, []⟩).1).thrown = none ∧
    (recalculateRenewals ⟨false, false, false, true⟩ "ag" ⟨2024, 6, 1⟩
        ⟨some ⟨5, ⟨100, 1⟩, 3⟩, []⟩).2 = none := by
  have h := metrics_never_throw ⟨false, false, false, true⟩ 1 ⟨1, 1⟩ "ag" ⟨2024, 6, 1⟩
    ⟨some ⟨5, ⟨100, 1⟩, 3⟩, []⟩
  exact ⟨(h.2.2.2 rfl).1, h.2.2.1, (h.2.2.2 rfl).2⟩

/-! ### The import loop: generic lemmas -/

theorem flushStep_lt (tb i : Nat) (st : ImportState) (h : st.batchOpCount < 390) :
    (flushStep tb i st).store = st.store ∧
    (flushStep tb i st).batchOpCount = st.batchOpCount ∧
    (flushStep tb i st).commits = st.commits ∧
    (flushStep tb i st).batch = st.batch ∧
    (flushStep tb i st).results = st.results ∧
    (flushStep tb i st).allOps = st.allOps := by
  unfold flushStep
  rw [if_neg (show ¬st.batchOpCount ≥ BATCH_SIZE - 10 by simp only [BATCH_SIZE]; omega)]
  split
  · exact ⟨rfl, rfl, rfl, rfl, rfl, rfl⟩
  · exact ⟨rfl, rfl, rfl, rfl, rfl, rfl⟩

theorem flushStep_ge (tb i : Nat) (st : ImportState) (h : st.batchOpCount ≥ 390) :
    (flushStep tb i st).store = applyBatch st.store st.batch ∧
    (flushStep tb i st).batchOpCount = 0 ∧
    (flushStep tb i st).commits = st.commits ++ [st.batchOpCount] ∧
    (flushStep tb i st).batch = [] ∧
    (flushStep tb i st).results = st.results ∧
    (flushStep tb i st).allOps = st.allOps := by
  unfold flushStep
  rw [if_pos (show st.batchOpCount ≥ BATCH_SIZE - 10 by simp only [BATCH_SIZE]; omega)]
  exact ⟨rfl, rfl, rfl, rfl, rfl, rfl⟩

theorem runRows_append (exc : Nat → Option String) (aid : String) (now : CDate)
    (tb : Nat) (l1 l2 : List ProcessedRow) :
    ∀ i st, runRows exc aid now tb (l1 ++ l2) i st =
      runRows exc aid now tb l2 (i + l1.length) (runRows exc aid now tb l1 i st) := by
  induction l1 with
  | nil => intro i st; simp [runRows]
  | cons r rs ih =>
    intro i st
    simp only [List.cons_append, runRows, List.length_cons, List.append_eq]
    rw [ih]
    have h1 : i + 1 + rs.length = i + (rs.length + 1) := by omega
    rw [h1]

theorem runRows_one (exc : Nat → Option String) (aid : String) (now : CDate)
    (tb i : Nat) (r : ProcessedRow) (st : ImportState) :
    runRows exc aid now tb [r] i st = processRow exc aid now tb i r st := rfl

theorem filter_replicate_pos {α} (p : α → Bool) (a : α) (h : p a = true) :
    ∀ n, (List.replicate n a).filter p = List.replicate n a := by
  intro n
  induction n with
  | zero => rfl
  | succ k ih => simp [List.replicate_succ, List.filter_cons, h, ih]

theorem filter_replicate_neg {α} (p : α → Bool) (a : α) (h : p a = false) :
    ∀ n, (List.replicate n a).filter p = [] := by
  intro n
  induction n with
  | zero => rfl
  | succ k ih => simp [List.replicate_succ, List.filter_cons, h, ih]

theorem flushStep_allOps (tb i : Nat) (st : ImportState) :
    (flushStep tb i st).allOps = st.allOps := by
  unfold flushStep
  split
  · rfl
  · split <;> rfl

/-! ### Claim C9: fields of queued new-customer documents -/

theorem processRow_allOps_ok (exc : Nat → Option String) (aid : String) (now : CDate)
    (tb i : Nat) (r : ProcessedRow) (st : ImportState)
    (h : st.allOps.all customerCreateOk = true) :
    (processRow exc aid now tb i r st).allOps.all customerCreateOk = true := by
  simp only [processRow]
  split
  · simpa using h
  · split
    · simpa using h
    · split <;> split <;>
        simp [flushStep_allOps, List.all_append, h, customerCreateOk, mkNewCustomer]

theorem runRows_allOps_ok (exc : Nat → Option String) (aid : String) (now : CDate)
    (tb : Nat) : ∀ (rows : List ProcessedRow) (i : Nat) (st : ImportState),
    st.allOps.all customerCreateOk = true →
    (runRows exc aid now tb rows i st).allOps.all customerCreateOk = true := by
  intro rows
  induction rows with
  | nil => intro i st h; simpa [runRows] using h
  | cons r rs ih =>
    intro i st h
    simp only [runRows]
    exact ih _ _ (processRow_allOps_ok exc aid now tb i r st h)

/-- C9 (confirmed): every new-customer document ever queued by
`importCSVData` carries status "active" and source "CSV Import" with
`phoneE164` and `phoneRaw` null — this repository resolves the spec's
"lead" vs "active" import-status fork to "active". -/
theorem importCSVData_customer_docs (exc : Nat → Option String) (aid : String)
    (now : CDate) (s0 : Store) (rows : List ProcessedRow) :
    (importCSVData exc aid now s0 rows).allOps.all customerCreateOk = true := by
  have h0 : ∀ inv : List ProcessedRow,
      (initImportState s0 inv).allOps.all customerCreateOk = true := fun _ => rfl
  simp only [importCSVData]
  split
  · simpa using runRows_allOps_ok exc aid now _ _ 0 _ (h0 _)
  · simpa using runRows_allOps_ok exc aid now _ _ 0 _ (h0 _)

/-! ### Claim C1: the batch ceiling -/

theorem flushStep_bound (tb i : Nat) (st : ImportState)
    (h1 : st.batchOpCount ≤ 391) (h2 : ∀ n ∈ st.commits, n ≤ 391) :
    (flushStep tb i st).batchOpCount ≤ 389 ∧
    ∀ n ∈ (flushStep tb i st).commits, n ≤ 391 := by
  by_cases hge : st.batchOpCount ≥ 390
  · obtain ⟨-, hc, hcm, -, -, -⟩ := flushStep_ge tb i st hge
    refine ⟨by omega, ?_⟩
    intro n hn
    rw [hcm] at hn
    rcases List.mem_append.mp hn with h | h
    · exact h2 n h
    · simp only [List.mem_singleton] at h
      omega
  · push_neg at hge
    obtain ⟨-, hc, hcm, -, -, -⟩ := flushStep_lt tb i st hge
    refine ⟨by omega, ?_⟩
    rw [hcm]
    exact h2

theorem processRow_bound (exc : Nat → Option String) (aid : String) (now : CDate)
    (tb i : Nat) (r : ProcessedRow) (st : ImportState)
    (h1 : st.batchOpCount ≤ 389) (h2 : ∀ n ∈ st.commits, n ≤ 391) :
    (processRow exc aid now tb i r st).batchOpCount ≤ 389 ∧
    ∀ n ∈ (processRow exc aid now tb i r st).commits, n ≤ 391 := by
  simp only [processRow]
  split
  · exact ⟨h1, h2⟩
  · split
    · exact ⟨h1, h2⟩
    · split <;> split <;>
        exact flushStep_bound _ _ _ (by simp; omega) (by simpa using h2)

theorem runRows_bound (exc : Nat → Option String) (aid : String) (now : CDate)
    (tb : Nat) : ∀ (rows : List ProcessedRow) (i : Nat) (st : ImportState),
    st.batchOpCount ≤ 389 → (∀ n ∈ st.commits, n ≤ 391) →
    (runRows exc aid now tb rows i st).batchOpCount ≤ 389 ∧
    ∀ n ∈ (runRows exc aid now tb rows i st).commits, n ≤ 391 := by
  intro rows
  induction rows with
  | nil => intro i st h1 h2; exact ⟨h1, h2⟩
  | cons r rs ih =>
    intro i st h1 h2
    simp only [runRows]
    obtain ⟨p1, p2⟩ := processRow_bound exc aid now tb i r st h1 h2
    exact ih _ _ p1 p2

/-- C1 (as amended): every batch `importCSVData` commits holds at most
391 operations.  The flush fires as soon as the pending count reaches
`BATCH_SIZE - 10 = 390`, and a row can add up to two operations after
the previous check, so a committed batch can hold 390 or 391 operations
— at most one more than the claimed 390, still safely under the 400
ceiling. -/
theorem importCSVData_commits_le (exc : Nat → Option String) (aid : String)
    (now : CDate) (s0 : Store) (rows : List ProcessedRow) :
    ∀ n ∈ (importCSVData exc aid now s0 rows).commits, n ≤ 391 := by
  have h := runRows_bound exc aid now
    (((rows.filter (fun r => r.valid && r.data.isSome)).length + BATCH_SIZE / 2 - 1) /
      (BATCH_SIZE / 2))
    (rows.filter (fun r => r.valid && r.data.isSome)) 0
    (initImportState s0 (rows.filter (fun r => !r.valid)))
    (by simp [initImportState]) (by simp [initImportState])
  simp only [importCSVData]
  split
  · intro n hn
    simp only [List.mem_append, List.mem_singleton] at hn
    rcases hn with hn | hn
    · exact h.2 n hn
    · have := h.1
      omega
  · exact h.2

/-- Witness for C1 (amended): a one-row import commits a single batch of
2 operations, and 2 ≤ 391. -/
theorem importCSVData_commits_le_witness :
    2 ∈ (importCSVData noExc "ag" nowJun Store.empty [rowJohn]).commits ∧ 2 ≤ 391 :=
  ⟨by decide, importCSVData_commits_le noExc "ag" nowJun Store.empty [rowJohn] 2 (by decide)⟩

/-- The name-range query of `rowJane` misses `custJohn` ("Jane Doe" and
"John Smith" differ inside the range bounds), for any policies and id
counter. -/
theorem lookupJane (ps : List PolicyDoc) (n : Nat) :
    findCustomerByNameAddressZip ⟨[custJohn], ps, n⟩
      rdJane.insuredName rdJane.address rdJane.zip = none := rfl

/-- `rowJane`'s policy is not a duplicate of `polJohn` (different line of
business), whatever customer id it is checked under. -/
theorem dupJane (cs : List Customer) (n cid : Nat) :
    findExistingPolicy ⟨cs, [polJohn], n⟩ cid rdJane.policyTypeNormalized
      rdJane.effectiveDate rdJane.insuranceCompany rdJane.premium = none := by
  unfold findExistingPolicy
  apply List.find?_eq_none.mpr
  intro p hp
  have hmem : p ∈ [polJohn] := List.mem_of_mem_filter hp
  simp only [List.mem_singleton] at hmem
  subst hmem
  decide

/-- One loop iteration in the create/create case: the row matched no
committed customer and its policy is no duplicate, so a customer
creation and a policy creation are queued. -/
theorem processRow_create (exc : Nat → Option String) (aid : String) (now : CDate)
    (tb i : Nat) (r : ProcessedRow) (st : ImportState) (rd : RowData)
    (hexc : exc i = none) (hdata : r.data = some rd)
    (hfound : findCustomerByNameAddressZip st.store rd.insuredName rd.address rd.zip = none)
    (hdup : findExistingPolicy { st.store with nextId := st.store.nextId + 1 }
      st.store.nextId rd.policyTypeNormalized rd.effectiveDate rd.insuranceCompany
      rd.premium = none) :
    processRow exc aid now tb i r st =
      flushStep tb i
        { st with
            store := { st.store with nextId := st.store.nextId + 1 }
            batch := st.batch ++ [BatchOp.setCustomer (mkNewCustomer st.store.nextId rd)]
              ++ [BatchOp.setPolicy (mkNewPolicy aid st.store.nextId rd)]
            allOps := st.allOps ++ [BatchOp.setCustomer (mkNewCustomer st.store.nextId rd)]
              ++ [BatchOp.setPolicy (mkNewPolicy aid st.store.nextId rd)]
            batchOpCount := st.batchOpCount + 1 + 1
            results := { st.results with imported := st.results.imported + 1 }
            newCustomersCount := st.newCustomersCount + 1
            hasRenewals := st.hasRenewals ||
              (CDate.leB now rd.expirationDate &&
               CDate.leB rd.expirationDate (jsAddDays now 30))
            newPoliciesPremium :=
              if rd.premium.num == 0 then st.newPoliciesPremium
              else JNum.add st.newPoliciesPremium rd.premium } := by
  simp only [processRow, hexc, hdata, hfound, hdup]

/-- One loop iteration in the update/skip case: the row matched a
committed customer whose matching policy is already on file, so a single
customer update is queued and the row counts as updated and skipped. -/
theorem processRow_update_skip (exc : Nat → Option String) (aid : String) (now : CDate)
    (tb i : Nat) (r : ProcessedRow) (st : ImportState) (rd : RowData) (c : Customer)
    (q : PolicyDoc)
    (hexc : exc i = none) (hdata : r.data = some rd)
    (hfound : findCustomerByNameAddressZip st.store rd.insuredName rd.address rd.zip = some c)
    (hdup : findExistingPolicy st.store c.id rd.policyTypeNormalized rd.effectiveDate
      rd.insuranceCompany rd.premium = some q) :
    processRow exc aid now tb i r st =
      flushStep tb i
        { st with
            batch := st.batch ++
              [BatchOp.updateCustomer c.id rd.address rd.city rd.state rd.zip]
            allOps := st.allOps ++
              [BatchOp.updateCustomer c.id rd.address rd.city rd.state rd.zip]
            batchOpCount := st.batchOpCount + 1
            results := { st.results with
              updated := st.results.updated + 1
              skipped := st.results.skipped + 1 } } := by
  simp only [processRow, hexc, hdata, hfound, hdup]

/-- Processing one `rowJane` against the fixed committed store with room
in the batch: two operations queued, no flush. -/
theorem janeStep (tb i n : Nat) (st : ImportState)
    (hs : st.store = ⟨[custJohn], [polJohn], n⟩)
    (hc : st.batchOpCount + 2 < 390) :
    (processRow noExc "ag" nowJun tb i rowJane st).store = ⟨[custJohn], [polJohn], n + 1⟩ ∧
    (processRow noExc "ag" nowJun tb i rowJane st).batchOpCount = st.batchOpCount + 2 ∧
    (processRow noExc "ag" nowJun tb i rowJane st).commits = st.commits := by
  have hfound : findCustomerByNameAddressZip st.store rdJane.insuredName rdJane.address
      rdJane.zip = none := by rw [hs]; exact lookupJane [polJohn] n
  have hdup : findExistingPolicy { st.store with nextId := st.store.nextId + 1 }
      st.store.nextId rdJane.policyTypeNormalized rdJane.effectiveDate
      rdJane.insuranceCompany rdJane.premium = none := by
    rw [hs]; exact dupJane [custJohn] (n + 1) n
  rw [processRow_create noExc "ag" nowJun tb i rowJane st rdJane rfl rfl hfound hdup]
  obtain ⟨a, b, c, -, -, -⟩ := flushStep_lt tb i
    { st with
        store := { st.store with nextId := st.store.nextId + 1 }
        batch := st.batch ++ [BatchOp.setCustomer (mkNewCustomer st.store.nextId rdJane)]
          ++ [BatchOp.setPolicy (mkNewPolicy "ag" st.store.nextId rdJane)]
        allOps := st.allOps ++ [BatchOp.setCustomer (mkNewCustomer st.store.nextId rdJane)]
          ++ [BatchOp.setPolicy (mkNewPolicy "ag" st.store.nextId rdJane)]
        batchOpCount := st.batchOpCount + 1 + 1
        results := { st.results with imported := st.results.imported + 1 }
        newCustomersCount := st.newCustomersCount + 1
        hasRenewals := st.hasRenewals ||
          (CDate.leB nowJun rdJane.expirationDate &&
           CDate.leB rdJane.expirationDate (jsAddDays nowJun 30))
        newPoliciesPremium :=
          if rdJane.premium.num == 0 then st.newPoliciesPremium
          else JNum.add st.newPoliciesPremium rdJane.premium }
    (by simp only []; omega)
  rw [a, b, c]
  refine ⟨by rw [hs], rfl, rfl⟩

/-- Processing one `rowJane` when the pending count stands at 389: the
count reaches 391 and the batch commits with 391 operations. -/
theorem janeStepCommit (tb i n : Nat) (st : ImportState)
    (hs : st.store = ⟨[custJohn], [polJohn], n⟩)
    (hc : st.batchOpCount = 389) :
    (processRow noExc "ag" nowJun tb i rowJane st).commits = st.commits ++ [391] ∧
    (processRow noExc "ag" nowJun tb i rowJane st).batchOpCount = 0 := by
  have hfound : findCustomerByNameAddressZip st.store rdJane.insuredName rdJane.address
      rdJane.zip = none := by rw [hs]; exact lookupJane [polJohn] n
  have hdup : findExistingPolicy { st.store with nextId := st.store.nextId + 1 }
      st.store.nextId rdJane.policyTypeNormalized rdJane.effectiveDate
      rdJane.insuranceCompany rdJane.premium = none := by
    rw [hs]; exact dupJane [custJohn] (n + 1) n
  rw [processRow_create noExc "ag" nowJun tb i rowJane st rdJane rfl rfl hfound hdup]
  obtain ⟨-, b, c, -, -, -⟩ := flushStep_ge tb i
    { st with
        store := { st.store with nextId := st.store.nextId + 1 }
        batch := st.batch ++ [BatchOp.setCustomer (mkNewCustomer st.store.nextId rdJane)]
          ++ [BatchOp.setPolicy (mkNewPolicy "ag" st.store.nextId rdJane)]
        allOps := st.allOps ++ [BatchOp.setCustomer (mkNewCustomer st.store.nextId rdJane)]
          ++ [BatchOp.setPolicy (mkNewPolicy "ag" st.store.nextId rdJane)]
        batchOpCount := st.batchOpCount + 1 + 1
        results := { st.results with imported := st.results.imported + 1 }
        newCustomersCount := st.newCustomersCount + 1
        hasRenewals := st.hasRenewals ||
          (CDate.leB nowJun rdJane.expirationDate &&
           CDate.leB rdJane.expirationDate (jsAddDays nowJun 30))
        newPoliciesPremium :=
          if rdJane.premium.num == 0 then st.newPoliciesPremium
          else JNum.add st.newPoliciesPremium rdJane.premium }
    (by simp only []; omega)
  rw [b, c]
  constructor
  · have : st.batchOpCount + 1 + 1 = 391 := by omega
    rw [this]
  · rfl

/-- Running `k` copies of `rowJane` with room to spare: the committed
store keeps its documents, no commit happens, and the pending count
grows by 2 per row. -/
theorem janeRun : ∀ (k : Nat) (tb i n : Nat) (st : ImportState),
    st.store = ⟨[custJohn], [polJohn], n⟩ →
    st.batchOpCount + 2 * k ≤ 389 → st.commits = [] →
    (runRows noExc "ag" nowJun tb (List.replicate k rowJane) i st).store =
      ⟨[custJohn], [polJohn], n + k⟩ ∧
    (runRows noExc "ag" nowJun tb (List.replicate k rowJane) i st).batchOpCount =
      st.batchOpCount + 2 * k ∧
    (runRows noExc "ag" nowJun tb (List.replicate k rowJane) i st).commits = [] := by
  intro k
  induction k with
  | zero =>
    intro tb i n st hs hc hcm
    simp only [List.replicate, runRows]
    exact ⟨by simp [hs], by omega, hcm⟩
  | succ k ih =>
    intro tb i n st hs hc hcm
    rw [List.replicate_succ]
    simp only [runRows]
    obtain ⟨a, b, c⟩ := janeStep tb i n st hs (by omega)
    obtain ⟨a2, b2, c2⟩ := ih tb (i + 1) (n + 1) _ a (by omega) (by rw [c]; exact hcm)
    refine ⟨?_, ?_, c2⟩
    · rw [a2]
      have h3 : n + 1 + k = n + (k + 1) := by omega
      rw [h3]
    · rw [b2, b]
      omega

/-- C1, counterexample: on `rowsC1` (196 valid rows against `storeC1`)
the orchestrator calls `commit()` on a batch holding 391 operations —
more than the claimed maximum of `BATCH_SIZE - 10 = 390`. -/
theorem johnStep (tb : Nat) :
    (processRow noExc "ag" nowJun tb 0 rowJohn (initImportState storeC1 [])).store =
      ⟨[custJohn], [polJohn], 1⟩ ∧
    (processRow noExc "ag" nowJun tb 0 rowJohn (initImportState storeC1 [])).batchOpCount = 1 ∧
    (processRow noExc "ag" nowJun tb 0 rowJohn (initImportState storeC1 [])).commits = [] := by
  rw [processRow_update_skip noExc "ag" nowJun tb 0 rowJohn (initImportState storeC1 [])
    rdJohn custJohn polJohn rfl rfl rfl rfl]
  obtain ⟨a, b, c, -, -, -⟩ := flushStep_lt tb 0
    { initImportState storeC1 [] with
        batch := (initImportState storeC1 []).batch ++
          [BatchOp.updateCustomer custJohn.id rdJohn.address rdJohn.city rdJohn.state rdJohn.zip]
        allOps := (initImportState storeC1 []).allOps ++
          [BatchOp.updateCustomer custJohn.id rdJohn.address rdJohn.city rdJohn.state rdJohn.zip]
        batchOpCount := (initImportState storeC1 []).batchOpCount + 1
        results := { (initImportState storeC1 []).results with
          updated := (initImportState storeC1 []).results.updated + 1
          skipped := (initImportState storeC1 []).results.skipped + 1 } }
    (by simp [initImportState])
  rw [a, b, c]
  exact ⟨rfl, rfl, rfl⟩

set_option maxRecDepth 8000 in
/-- C1, counterexample: on `rowsC1` (196 valid rows against `storeC1`)
the orchestrator calls `commit()` on a batch holding 391 operations —
more than the claimed maximum of `BATCH_SIZE - 10 = 390`. -/
theorem importCSVData_commits_391 :
    (importCSVData noExc "ag" nowJun storeC1 rowsC1).commits = [391] ∧ 390 < 391 := by
  refine ⟨?_, by omega⟩
  have hfv : rowsC1.filter (fun r => r.valid && r.data.isSome) = rowsC1 := by
    unfold rowsC1
    rw [List.filter_cons]
    simp only [show ((fun (r : ProcessedRow) => r.valid && r.data.isSome) rowJohn) = true
      from rfl, if_true]
    rw [filter_replicate_pos _ _ rfl]
  have hiv : rowsC1.filter (fun r => !r.valid) = [] := by
    unfold rowsC1
    rw [List.filter_cons]
    simp only [show ((fun (r : ProcessedRow) => !r.valid) rowJohn) = false from rfl,
      Bool.false_eq_true, if_false]
    rw [filter_replicate_neg _ _ rfl]
  have hsplit : rowsC1 = [rowJohn] ++ (List.replicate 194 rowJane ++ [rowJane]) := by
    show rowJohn :: List.replicate 195 rowJane = _
    rw [← List.replicate_succ']
    rfl
  simp only [importCSVData, hfv, hiv]
  rw [hsplit, runRows_append, runRows_append]
  simp only [List.length_singleton, List.length_replicate]
  rw [runRows_one, runRows_one]
  obtain ⟨j1, j2, j3⟩ := johnStep
    ((([rowJohn] ++ (List.replicate 194 rowJane ++ [rowJane])).length + BATCH_SIZE / 2 - 1) /
      (BATCH_SIZE / 2))
  obtain ⟨a, b, c⟩ := janeRun 194
    ((([rowJohn] ++ (List.replicate 194 rowJane ++ [rowJane])).length + BATCH_SIZE / 2 - 1) /
      (BATCH_SIZE / 2)) (0 + 1) 1 _ j1 (by rw [j2]; try omega) j3
  obtain ⟨d1, d2⟩ := janeStepCommit
    ((([rowJohn] ++ (List.replicate 194 rowJane ++ [rowJane])).length + BATCH_SIZE / 2 - 1) /
      (BATCH_SIZE / 2)) (0 + 1 + 194) (1 + 194) _ a (by rw [b, j2]; try omega)
  rw [d2]
  rw [if_neg (show ¬((0 : Nat) > 0) by omega)]
  rw [d1, c]
  rfl

/-! ### Claim C4: the duplicate-policy definition -/

theorem flushStep_results (tb i : Nat) (st : ImportState) :
    (flushStep tb i st).results = st.results := by
  unfold flushStep
  split
  · rfl
  · split <;> rfl

theorem toRat_sub (a b : JNum) (ha : a.den ≠ 0) (hb : b.den ≠ 0) :
    (JNum.sub a b).toRat = a.toRat - b.toRat := by
  have ha' : (a.den : ℚ) ≠ 0 := Nat.cast_ne_zero.mpr ha
  have hb' : (b.den : ℚ) ≠ 0 := Nat.cast_ne_zero.mpr hb
  unfold JNum.sub JNum.toRat
  by_cases h : a.den = b.den
  · simp only [h, beq_self_eq_true, if_true]
    push_cast
    rw [← h]
    field_simp
  · have h' : (a.den == b.den) = false := by simpa using h
    simp only [h', Bool.false_eq_true, if_false]
    push_cast
    field_simp
    ring

theorem toRat_abs (a : JNum) : (JNum.abs a).toRat = |a.toRat| := by
  unfold JNum.abs JNum.toRat
  rw [abs_div]
  congr 1
  · push_cast
    rfl
  · exact (abs_of_nonneg (by positivity)).symm

theorem ltB_iff (a b : JNum) (ha : a.den ≠ 0) (hb : b.den ≠ 0) :
    JNum.ltB a b = true ↔ a.toRat < b.toRat := by
  have ha' : (0 : ℚ) < (a.den : ℚ) := by positivity
  have hb' : (0 : ℚ) < (b.den : ℚ) := by positivity
  unfold JNum.ltB JNum.toRat
  rw [decide_eq_true_eq, div_lt_div_iff ha' hb']
  constructor
  · intro h; exact_mod_cast h
  · intro h; exact_mod_cast h

theorem sub_den_ne_zero (a b : JNum) (ha : a.den ≠ 0) (hb : b.den ≠ 0) :
    (JNum.sub a b).den ≠ 0 := by
  unfold JNum.sub
  split
  · exact ha
  · simpa using ⟨ha, hb⟩

theorem abs_den (a : JNum) : (JNum.abs a).den = a.den := rfl

/-- The premium tolerance check, read back as a rational fact. -/
theorem premium_close_iff (a b : JNum) (ha : a.den ≠ 0) (hb : b.den ≠ 0) :
    JNum.ltB (JNum.abs (JNum.sub a b)) hundredth = true ↔
      |a.toRat - b.toRat| < 1 / 100 := by
  have hd : (JNum.abs (JNum.sub a b)).den ≠ 0 := by
    rw [abs_den]; exact sub_den_ne_zero a b ha hb
  rw [ltB_iff _ _ hd (by decide), toRat_abs, toRat_sub a b ha hb]
  have : JNum.toRat hundredth = 1 / 100 := by
    unfold hundredth JNum.toRat
    norm_num
  rw [this]

theorem find?_filter_isSome {α} (p q : α → Bool) (l : List α) :
    ((l.filter p).find? q).isSome = true ↔ ∃ x ∈ l, p x = true ∧ q x = true := by
  rw [List.find?_isSome]
  constructor
  · rintro ⟨x, hx, hq⟩
    have := List.mem_filter.mp hx
    exact ⟨x, this.1, this.2, hq⟩
  · rintro ⟨x, hx, hp, hq⟩
    exact ⟨x, List.mem_filter.mpr ⟨hx, hp⟩, hq⟩

/-- C4 (as amended): a stored policy of the resolved customer is
classified as a duplicate of the imported row iff the normalized policy
types are equal, the calendar dates of the effective dates are equal,
the carrier names are equal after trimming outer whitespace and
lowercasing (internal whitespace is significant), and the premiums
differ by less than 0.01 in absolute value; premiums 1200.00/1200.004
are within tolerance while 1200.00/1201.00 are not; and a detected
duplicate is counted as skipped with no policy write queued. -/
theorem findExistingPolicy_spec :
    (∀ (p : PolicyDoc) (pt : String) (eff : CDate) (company : String) (prem : JNum),
      p.premium.den ≠ 0 → prem.den ≠ 0 →
      (policyMatches p pt eff company prem = true ↔
        (p.policyTypeNormalized = pt ∧ p.effectiveDate = eff ∧
         jsLower (jsTrim p.insuranceCompany) = jsLower (jsTrim company) ∧
         |JNum.toRat p.premium - JNum.toRat prem| < 1 / 100))) ∧
    (∀ (s : Store) (cid : Nat) (pt : String) (eff : CDate) (company : String)
       (prem : JNum),
      (findExistingPolicy s cid pt eff company prem).isSome = true ↔
        ∃ p ∈ s.policies, p.customerId = cid ∧
          policyMatches p pt eff company prem = true) ∧
    (parsePremium "1200.004" = some ⟨1200004, 1000⟩ ∧
     parsePremium "1200.00" = some ⟨120000, 100⟩ ∧
     parsePremium "1201.00" = some ⟨120100, 100⟩ ∧
     JNum.ltB (JNum.abs (JNum.sub ⟨1200004, 1000⟩ ⟨120000, 100⟩)) hundredth = true ∧
     JNum.ltB (JNum.abs (JNum.sub ⟨120100, 100⟩ ⟨120000, 100⟩)) hundredth = false) ∧
    (∀ (exc : Nat → Option String) (aid : String) (now : CDate) (tb i : Nat)
       (r : ProcessedRow) (st : ImportState) (rd : RowData) (c : Customer)
       (q : PolicyDoc),
      exc i = none → r.data = some rd →
      findCustomerByNameAddressZip st.store rd.insuredName rd.address rd.zip = some c →
      findExistingPolicy st.store c.id rd.policyTypeNormalized rd.effectiveDate
        rd.insuranceCompany rd.premium = some q →
      (processRow exc aid now tb i r st).results.skipped = st.results.skipped + 1 ∧
      (processRow exc aid now tb i r st).allOps =
        st.allOps ++ [BatchOp.updateCustomer c.id rd.address rd.city rd.state rd.zip]) := by
  refine ⟨?_, ?_, ⟨by decide, by decide, by decide, by decide, by decide⟩, ?_⟩
  · intro p pt eff company prem hp hq
    unfold policyMatches
    rw [Bool.and_eq_true, Bool.and_eq_true, Bool.and_eq_true]
    rw [premium_close_iff p.premium prem hp hq]
    constructor
    · rintro ⟨⟨⟨h1, h2⟩, h3⟩, h4⟩
      exact ⟨by simpa using h1, by simpa using h2, by simpa using h3, h4⟩
    · rintro ⟨h1, h2, h3, h4⟩
      exact ⟨⟨⟨by simpa using h1, by simpa using h2⟩, by simpa using h3⟩, h4⟩
  · intro s cid pt eff company prem
    unfold findExistingPolicy
    rw [find?_filter_isSome]
    constructor
    · rintro ⟨p, hp, hc, hm⟩
      exact ⟨p, hp, by simpa using hc, hm⟩
    · rintro ⟨p, hp, hc, hm⟩
      exact ⟨p, hp, by simpa using hc, hm⟩
  · intro exc aid now tb i r st rd c q hexc hdata hfound hdup
    rw [processRow_update_skip exc aid now tb i r st rd c q hexc hdata hfound hdup]
    rw [flushStep_results, flushStep_allOps]
    exact ⟨rfl, rfl⟩

/-- Witness for C4: `polJohn` is a duplicate of its own row's key, hence
its premium difference 0 is within tolerance; and the concrete dup-skip
row increments skipped without a policy write. -/
theorem findExistingPolicy_spec_witness :
    (policyMatches polJohn rdJohn.policyTypeNormalized rdJohn.effectiveDate
        rdJohn.insuranceCompany rdJohn.premium = true ↔
      (polJohn.policyTypeNormalized = rdJohn.policyTypeNormalized ∧
       polJohn.effectiveDate = rdJohn.effectiveDate ∧
       jsLower (jsTrim polJohn.insuranceCompany) =
         jsLower (jsTrim rdJohn.insuranceCompany) ∧
       |JNum.toRat polJohn.premium - JNum.toRat rdJohn.premium| < 1 / 100)) ∧
    (processRow noExc "ag" nowJun 1 0 rowJohn
        (initImportState storeC1 [])).results.skipped =
      (initImportState storeC1 []).results.skipped + 1 := by
  constructor
  · exact findExistingPolicy_spec.1 polJohn rdJohn.policyTypeNormalized
      rdJohn.effectiveDate rdJohn.insuranceCompany rdJohn.premium
      (by decide) (by decide)
  · exact (findExistingPolicy_spec.2.2.2 noExc "ag" nowJun 1 0 rowJohn
      (initImportState storeC1 []) rdJohn custJohn polJohn rfl rfl rfl rfl).1

/-- C4, counterexample: the carriers "Acme  Ins" (double internal space)
and "Acme Ins" are equal case- and whitespace-insensitively, every other
duplicate field matches exactly, and yet `findExistingPolicy` reports no
duplicate — the code's carrier comparison only trims outer whitespace. -/
theorem findExistingPolicy_ws_counterexample :
    wsInsensitiveEq "Acme  Ins" "Acme Ins" = true ∧
    polWs.policyTypeNormalized = rdJohn.policyTypeNormalized ∧
    polWs.effectiveDate = rdJohn.effectiveDate ∧
    polWs.premium = rdJohn.premium ∧
    polWs.insuranceCompany = "Acme  Ins" ∧
    rdJohn.insuranceCompany = "Acme Ins" ∧
    polWs.customerId = 0 ∧ polWs ∈ storeWs.policies ∧
    findExistingPolicy storeWs 0 rdJohn.policyTypeNormalized rdJohn.effectiveDate
      rdJohn.insuranceCompany rdJohn.premium = none := by
  decide

/-! ### Claim C10: the pending batch is invisible to the duplicate scan -/

/-- One loop iteration in the create/dup-skip case: no committed
customer matched (a new customer document is queued), but a committed
policy under the fresh id already matches, so the policy is skipped. -/
theorem processRow_create_skip (exc : Nat → Option String) (aid : String) (now : CDate)
    (tb i : Nat) (r : ProcessedRow) (st : ImportState) (rd : RowData) (q : PolicyDoc)
    (hexc : exc i = none) (hdata : r.data = some rd)
    (hfound : findCustomerByNameAddressZip st.store rd.insuredName rd.address rd.zip = none)
    (hdup : findExistingPolicy { st.store with nextId := st.store.nextId + 1 }
      st.store.nextId rd.policyTypeNormalized rd.effectiveDate rd.insuranceCompany
      rd.premium = some q) :
    processRow exc aid now tb i r st =
      flushStep tb i
        { st with
            store := { st.store with nextId := st.store.nextId + 1 }
            batch := st.batch ++ [BatchOp.setCustomer (mkNewCustomer st.store.nextId rd)]
            allOps := st.allOps ++ [BatchOp.setCustomer (mkNewCustomer st.store.nextId rd)]
            batchOpCount := st.batchOpCount + 1
            results := { st.results with
              imported := st.results.imported + 1
              skipped := st.results.skipped + 1 }
            newCustomersCount := st.newCustomersCount + 1 } := by
  simp only [processRow, hexc, hdata, hfound, hdup]

theorem processRow_create_proj (exc : Nat → Option String) (aid : String) (now : CDate)
    (tb i : Nat) (r : ProcessedRow) (st : ImportState) (rd : RowData)
    (hexc : exc i = none) (hdata : r.data = some rd)
    (hfound : findCustomerByNameAddressZip st.store rd.insuredName rd.address rd.zip = none)
    (hdup : findExistingPolicy { st.store with nextId := st.store.nextId + 1 }
      st.store.nextId rd.policyTypeNormalized rd.effectiveDate rd.insuranceCompany
      rd.premium = none)
    (hcnt : st.batchOpCount + 2 < 390) :
    (processRow exc aid now tb i r st).store = { st.store with nextId := st.store.nextId + 1 } ∧
    (processRow exc aid now tb i r st).batchOpCount = st.batchOpCount + 1 + 1 ∧
    (processRow exc aid now tb i r st).commits = st.commits ∧
    (processRow exc aid now tb i r st).results.imported = st.results.imported + 1 ∧
    (processRow exc aid now tb i r st).results.updated = st.results.updated ∧
    (processRow exc aid now tb i r st).results.skipped = st.results.skipped ∧
    (processRow exc aid now tb i r st).results.errors = st.results.errors ∧
    (processRow exc aid now tb i r st).allOps =
      st.allOps ++ [BatchOp.setCustomer (mkNewCustomer st.store.nextId rd)]
        ++ [BatchOp.setPolicy (mkNewPolicy aid st.store.nextId rd)] ∧
    (processRow exc aid now tb i r st).batch =
      st.batch ++ [BatchOp.setCustomer (mkNewCustomer st.store.nextId rd)]
        ++ [BatchOp.setPolicy (mkNewPolicy aid st.store.nextId rd)] := by
  rw [processRow_create exc aid now tb i r st rd hexc hdata hfound hdup]
  unfold flushStep
  split <;> split
  · rename_i hge
    exfalso
    simp only [BATCH_SIZE] at hge
    omega
  · split <;> exact ⟨rfl, rfl, rfl, rfl, rfl, rfl, rfl, rfl, rfl⟩
  · rename_i hge
    exfalso
    simp only [BATCH_SIZE] at hge
    omega
  · split <;> exact ⟨rfl, rfl, rfl, rfl, rfl, rfl, rfl, rfl, rfl⟩

theorem processRow_create_skip_proj (exc : Nat → Option String) (aid : String) (now : CDate)
    (tb i : Nat) (r : ProcessedRow) (st : ImportState) (rd : RowData) (q : PolicyDoc)
    (hexc : exc i = none) (hdata : r.data = some rd)
    (hfound : findCustomerByNameAddressZip st.store rd.insuredName rd.address rd.zip = none)
    (hdup : findExistingPolicy { st.store with nextId := st.store.nextId + 1 }
      st.store.nextId rd.policyTypeNormalized rd.effectiveDate rd.insuranceCompany
      rd.premium = some q)
    (hcnt : st.batchOpCount + 1 < 390) :
    (processRow exc aid now tb i r st).store = { st.store with nextId := st.store.nextId + 1 } ∧
    (processRow exc aid now tb i r st).batchOpCount = st.batchOpCount + 1 ∧
    (processRow exc aid now tb i r st).commits = st.commits ∧
    (processRow exc aid now tb i r st).results.imported = st.results.imported + 1 ∧
    (processRow exc aid now tb i r st).results.updated = st.results.updated ∧
    (processRow exc aid now tb i r st).results.skipped = st.results.skipped + 1 ∧
    (processRow exc aid now tb i r st).results.errors = st.results.errors ∧
    (processRow exc aid now tb i r st).allOps =
      st.allOps ++ [BatchOp.setCustomer (mkNewCustomer st.store.nextId rd)] := by
  rw [processRow_create_skip exc aid now tb i r st rd q hexc hdata hfound hdup]
  unfold flushStep
  split
  · rename_i hge
    exfalso
    simp only [BATCH_SIZE] at hge
    omega
  · split <;> exact ⟨rfl, rfl, rfl, rfl, rfl, rfl, rfl, rfl⟩

theorem processRow_update_skip_proj (exc : Nat → Option String) (aid : String) (now : CDate)
    (tb i : Nat) (r : ProcessedRow) (st : ImportState) (rd : RowData) (c : Customer)
    (q : PolicyDoc)
    (hexc : exc i = none) (hdata : r.data = some rd)
    (hfound : findCustomerByNameAddressZip st.store rd.insuredName rd.address rd.zip = some c)
    (hdup : findExistingPolicy st.store c.id rd.policyTypeNormalized rd.effectiveDate
      rd.insuranceCompany rd.premium = some q)
    (hcnt : st.batchOpCount + 1 < 390) :
    (processRow exc aid now tb i r st).store = st.store ∧
    (processRow exc aid now tb i r st).batchOpCount = st.batchOpCount + 1 ∧
    (processRow exc aid now tb i r st).commits = st.commits ∧
    (processRow exc aid now tb i r st).results.imported = st.results.imported ∧
    (processRow exc aid now tb i r st).results.updated = st.results.updated + 1 ∧
    (processRow exc aid now tb i r st).results.skipped = st.results.skipped + 1 ∧
    (processRow exc aid now tb i r st).results.errors = st.results.errors ∧
    (processRow exc aid now tb i r st).allOps =
      st.allOps ++ [BatchOp.updateCustomer c.id rd.address rd.city rd.state rd.zip] := by
  rw [processRow_update_skip exc aid now tb i r st rd c q hexc hdata hfound hdup]
  unfold flushStep
  split
  · rename_i hge
    exfalso
    simp only [BATCH_SIZE] at hge
    omega
  · split <;> exact ⟨rfl, rfl, rfl, rfl, rfl, rfl, rfl, rfl⟩

/-- Two-row run in which neither row's triple matches any committed
customer: both rows create customers with consecutive fresh ids,
whatever the committed policies say about duplicates. -/
theorem twoRowRun (aid : String) (now : CDate) (s : Store) (r1 r2 : ProcessedRow)
    (rd1 rd2 : RowData) (tb : Nat)
    (hd1 : r1.data = some rd1) (hd2 : r2.data = some rd2)
    (hl1 : findCustomerByNameAddressZip s rd1.insuredName rd1.address rd1.zip = none)
    (hl2 : findCustomerByNameAddressZip s rd2.insuredName rd2.address rd2.zip = none) :
    (runRows noExc aid now tb [r1, r2] 0 (initImportState s [])).results.imported = 2 ∧
    setCustomerDocs (runRows noExc aid now tb [r1, r2] 0 (initImportState s [])).allOps =
      [mkNewCustomer s.nextId rd1, mkNewCustomer (s.nextId + 1) rd2] := by
  simp only [runRows]
  have hcnt0 : (initImportState s []).batchOpCount + 2 < 390 := by
    simp [initImportState]
  have hcnt0' : (initImportState s []).batchOpCount + 1 < 390 := by
    simp [initImportState]
  have himp0 : (initImportState s []).results.imported = 0 := rfl
  have hall0 : (initImportState s []).allOps = [] := rfl
  have hstore0 : (initImportState s []).store = s := rfl
  cases hq1 : findExistingPolicy { s with nextId := s.nextId + 1 } s.nextId
      rd1.policyTypeNormalized rd1.effectiveDate rd1.insuranceCompany rd1.premium with
  | none =>
    obtain ⟨a1, b1, -, i1, -, -, -, o1, -⟩ := processRow_create_proj noExc aid now tb 0 r1
      (initImportState s []) rd1 rfl hd1 hl1 hq1 hcnt0
    have hl2' : findCustomerByNameAddressZip
        (processRow noExc aid now tb 0 r1 (initImportState s [])).store
        rd2.insuredName rd2.address rd2.zip = none := by
      rw [a1]; exact hl2
    have hcnt1 : (processRow noExc aid now tb 0 r1 (initImportState s [])).batchOpCount + 2 <
        390 := by
      rw [b1]; simp [initImportState]
    have hcnt1' : (processRow noExc aid now tb 0 r1 (initImportState s [])).batchOpCount + 1 <
        390 := by
      rw [b1]; simp [initImportState]
    cases hq2 : findExistingPolicy
        { (processRow noExc aid now tb 0 r1 (initImportState s [])).store with
            nextId := (processRow noExc aid now tb 0 r1 (initImportState s [])).store.nextId + 1 }
        (processRow noExc aid now tb 0 r1 (initImportState s [])).store.nextId
        rd2.policyTypeNormalized rd2.effectiveDate rd2.insuranceCompany rd2.premium with
    | none =>
      obtain ⟨-, -, -, i2, -, -, -, o2, -⟩ := processRow_create_proj noExc aid now tb 1 r2
        (processRow noExc aid now tb 0 r1 (initImportState s [])) rd2 rfl hd2 hl2' hq2 hcnt1
      refine ⟨by rw [i2, i1, himp0], ?_⟩
      rw [o2, o1, hall0, a1]
      simp [setCustomerDocs, List.filterMap_append, hstore0]
    | some q =>
      obtain ⟨-, -, -, i2, -, -, -, o2⟩ := processRow_create_skip_proj noExc aid now tb 1 r2
        (processRow noExc aid now tb 0 r1 (initImportState s [])) rd2 q rfl hd2 hl2' hq2 hcnt1'
      refine ⟨by rw [i2, i1, himp0], ?_⟩
      rw [o2, o1, hall0, a1]
      simp [setCustomerDocs, List.filterMap_append, hstore0]
  | some q1 =>
    obtain ⟨a1, b1, -, i1, -, -, -, o1⟩ := processRow_create_skip_proj noExc aid now tb 0 r1
      (initImportState s []) rd1 q1 rfl hd1 hl1 hq1 hcnt0'
    have hl2' : findCustomerByNameAddressZip
        (processRow noExc aid now tb 0 r1 (initImportState s [])).store
        rd2.insuredName rd2.address rd2.zip = none := by
      rw [a1]; exact hl2
    have hcnt1 : (processRow noExc aid now tb 0 r1 (initImportState s [])).batchOpCount + 2 <
        390 := by
      rw [b1]; simp [initImportState]
    have hcnt1' : (processRow noExc aid now tb 0 r1 (initImportState s [])).batchOpCount + 1 <
        390 := by
      rw [b1]; simp [initImportState]
    cases hq2 : findExistingPolicy
        { (processRow noExc aid now tb 0 r1 (initImportState s [])).store with
            nextId := (processRow noExc aid now tb 0 r1 (initImportState s [])).store.nextId + 1 }
        (processRow noExc aid now tb 0 r1 (initImportState s [])).store.nextId
        rd2.policyTypeNormalized rd2.effectiveDate rd2.insuranceCompany rd2.premium with
    | none =>
      obtain ⟨-, -, -, i2, -, -, -, o2, -⟩ := processRow_create_proj noExc aid now tb 1 r2
        (processRow noExc aid now tb 0 r1 (initImportState s [])) rd2 rfl hd2 hl2' hq2 hcnt1
      refine ⟨by rw [i2, i1, himp0], ?_⟩
      rw [o2, o1, hall0, a1]
      simp [setCustomerDocs, List.filterMap_append, hstore0]
    | some q =>
      obtain ⟨-, -, -, i2, -, -, -, o2⟩ := processRow_create_skip_proj noExc aid now tb 1 r2
        (processRow noExc aid now tb 0 r1 (initImportState s [])) rd2 q rfl hd2 hl2' hq2 hcnt1'
      refine ⟨by rw [i2, i1, himp0], ?_⟩
      rw [o2, o1, hall0, a1]
      simp [setCustomerDocs, List.filterMap_append, hstore0]

/-- C10 (confirmed): two valid rows with the same exact-normalized
triple, no committed customer matching it, and no flush between them:
both rows queue distinct new customer documents (consecutive fresh ids)
and `imported` is incremented twice — the duplicate-customer lookup
consults only the committed store, never the pending batch. -/
theorem importCSVData_pending_batch_invisible (aid : String) (now : CDate) (s : Store)
    (r1 r2 : ProcessedRow) (rd1 rd2 : RowData)
    (h1 : r1.valid = true) (hd1 : r1.data = some rd1)
    (h2 : r2.valid = true) (hd2 : r2.data = some rd2)
    (htriple : normalizeAddressC rd1.insuredName = normalizeAddressC rd2.insuredName ∧
      normalizeAddressC rd1.address = normalizeAddressC rd2.address ∧
      normalizeAddressC rd1.zip = normalizeAddressC rd2.zip)
    (hl1 : findCustomerByNameAddressZip s rd1.insuredName rd1.address rd1.zip = none)
    (hl2 : findCustomerByNameAddressZip s rd2.insuredName rd2.address rd2.zip = none) :
    (importCSVData noExc aid now s [r1, r2]).results.imported = 2 ∧
    setCustomerDocs (importCSVData noExc aid now s [r1, r2]).allOps =
      [mkNewCustomer s.nextId rd1, mkNewCustomer (s.nextId + 1) rd2] ∧
    (mkNewCustomer s.nextId rd1).id ≠ (mkNewCustomer (s.nextId + 1) rd2).id := by
  have hfv : ([r1, r2] : List ProcessedRow).filter (fun r => r.valid && r.data.isSome) =
      [r1, r2] := by
    simp [List.filter_cons, h1, h2, hd1, hd2]
  have hiv : ([r1, r2] : List ProcessedRow).filter (fun r => !r.valid) = [] := by
    simp [List.filter_cons, h1, h2]
  obtain ⟨hi, ho⟩ := twoRowRun aid now s r1 r2 rd1 rd2
    ((([r1, r2] : List ProcessedRow).length + BATCH_SIZE / 2 - 1) / (BATCH_SIZE / 2))
    hd1 hd2 hl1 hl2
  simp only [importCSVData, hfv, hiv]
  split
  · exact ⟨hi, ho, by simp [mkNewCustomer]⟩
  · exact ⟨hi, ho, by simp [mkNewCustomer]⟩

/-- Witness for C10: the two identical-triple rows `rowJohn`/`rowJohnHo`
against the empty store yield two distinct queued customers. -/
theorem importCSVData_pending_batch_invisible_witness :
    (importCSVData noExc "ag" nowJun Store.empty [rowJohn, rowJohnHo]).results.imported = 2 ∧
    setCustomerDocs (importCSVData noExc "ag" nowJun Store.empty
        [rowJohn, rowJohnHo]).allOps =
      [mkNewCustomer 0 rdJohn, mkNewCustomer 1 rdJohnHo] ∧
    (mkNewCustomer 0 rdJohn).id ≠ (mkNewCustomer 1 rdJohnHo).id := by
  have h := importCSVData_pending_batch_invisible "ag" nowJun Store.empty rowJohn rowJohnHo
    rdJohn rdJohnHo rfl rfl rfl rfl ⟨rfl, rfl, rfl⟩ rfl rfl
  exact h

/-! ### Claim C3: row-level fault isolation -/

theorem processRow_errors_mono (exc : Nat → Option String) (aid : String) (now : CDate)
    (tb i : Nat) (r : ProcessedRow) (st : ImportState) (e : Nat × List String)
    (h : e ∈ st.results.errors) :
    e ∈ (processRow exc aid now tb i r st).results.errors := by
  simp only [processRow]
  split
  · exact List.mem_append_left _ h
  · split
    · exact h
    · split <;> split <;> (rw [flushStep_results]; exact h)

theorem runRows_errors_mono (exc : Nat → Option String) (aid : String) (now : CDate)
    (tb : Nat) : ∀ (rows : List ProcessedRow) (i : Nat) (st : ImportState)
    (e : Nat × List String), e ∈ st.results.errors →
    e ∈ (runRows exc aid now tb rows i st).results.errors := by
  intro rows
  induction rows with
  | nil => intro i st e h; exact h
  | cons r rs ih =>
    intro i st e h
    exact ih _ _ _ (processRow_errors_mono exc aid now tb i r st e h)

theorem processRow_counts (exc : Nat → Option String) (aid : String) (now : CDate)
    (tb i : Nat) (r : ProcessedRow) (st : ImportState) (rd : RowData)
    (hdata : r.data = some rd) :
    ((processRow exc aid now tb i r st).results.imported +
       (processRow exc aid now tb i r st).results.updated =
     st.results.imported + st.results.updated +
       (if (exc i).isNone then 1 else 0)) ∧
    ((processRow exc aid now tb i r st).results.skipped ≥
     st.results.skipped + (if (exc i).isSome then 1 else 0)) ∧
    (∀ msg, exc i = some msg →
      (r.rowIndex, [msg]) ∈ (processRow exc aid now tb i r st).results.errors) := by
  cases hexc : exc i with
  | some m =>
    simp only [processRow, hexc, hdata]
    refine ⟨by simp, by simp, ?_⟩
    intro msg hmsg
    simp only [Option.some.injEq] at hmsg
    subst hmsg
    simp
  | none =>
    simp only [processRow, hexc, hdata]
    refine ⟨?_, ?_, by intro msg hmsg; cases hmsg⟩
    · split <;> split <;> (rw [flushStep_results]; simp; omega)
    · split <;> split <;> (rw [flushStep_results]; simp)

theorem runRows_counts (exc : Nat → Option String) (aid : String) (now : CDate)
    (tb : Nat) : ∀ (rows : List ProcessedRow) (i : Nat) (st : ImportState),
    (∀ r ∈ rows, r.data.isSome = true) →
    (runRows exc aid now tb rows i st).results.imported +
      (runRows exc aid now tb rows i st).results.updated =
    st.results.imported + st.results.updated +
      (List.range rows.length).countP (fun j => (exc (i + j)).isNone) := by
  intro rows
  induction rows with
  | nil => intro i st _; simp [runRows]
  | cons r rs ih =>
    intro i st hall
    obtain ⟨rd, hrd⟩ := Option.isSome_iff_exists.mp (hall r (List.mem_cons_self r rs))
    simp only [runRows]
    rw [ih (i + 1) _ (fun x hx => hall x (List.mem_cons_of_mem r hx))]
    rw [(processRow_counts exc aid now tb i r st rd hrd).1]
    have hcount : (List.range (r :: rs).length).countP (fun j => (exc (i + j)).isNone) =
        (if (exc i).isNone then 1 else 0) +
        (List.range rs.length).countP (fun j => (exc (i + 1 + j)).isNone) := by
      rw [List.length_cons, List.range_succ_eq_map, List.countP_cons, List.countP_map]
      have hpt : (List.range rs.length).countP
          ((fun j => (exc (i + j)).isNone) ∘ Nat.succ) =
          (List.range rs.length).countP (fun j => (exc (i + 1 + j)).isNone) := by
        apply List.countP_congr
        intro a _
        have : i + Nat.succ a = i + 1 + a := by omega
        simp only [Function.comp, this]
      rw [hpt]
      simp only [Nat.add_zero]
      omega
    rw [hcount]
    omega

theorem runRows_skips (exc : Nat → Option String) (aid : String) (now : CDate)
    (tb : Nat) : ∀ (rows : List ProcessedRow) (i : Nat) (st : ImportState),
    (∀ r ∈ rows, r.data.isSome = true) →
    (runRows exc aid now tb rows i st).results.skipped ≥
    st.results.skipped +
      (List.range rows.length).countP (fun j => (exc (i + j)).isSome) := by
  intro rows
  induction rows with
  | nil => intro i st _; simp [runRows]
  | cons r rs ih =>
    intro i st hall
    obtain ⟨rd, hrd⟩ := Option.isSome_iff_exists.mp (hall r (List.mem_cons_self r rs))
    simp only [runRows]
    have h1 := ih (i + 1) (processRow exc aid now tb i r st)
      (fun x hx => hall x (List.mem_cons_of_mem r hx))
    have h2 := (processRow_counts exc aid now tb i r st rd hrd).2.1
    have hcount : (List.range (r :: rs).length).countP (fun j => (exc (i + j)).isSome) =
        (if (exc i).isSome then 1 else 0) +
        (List.range rs.length).countP (fun j => (exc (i + 1 + j)).isSome) := by
      rw [List.length_cons, List.range_succ_eq_map, List.countP_cons, List.countP_map]
      have hpt : (List.range rs.length).countP
          ((fun j => (exc (i + j)).isSome) ∘ Nat.succ) =
          (List.range rs.length).countP (fun j => (exc (i + 1 + j)).isSome) := by
        apply List.countP_congr
        intro a _
        have : i + Nat.succ a = i + 1 + a := by omega
        simp only [Function.comp, this]
      rw [hpt]
      simp only [Nat.add_zero]
      omega
    rw [hcount]
    omega

theorem runRows_failed_row_in_errors (exc : Nat → Option String) (aid : String)
    (now : CDate) (tb : Nat) : ∀ (rows : List ProcessedRow) (i : Nat) (st : ImportState)
    (j : Nat) (r : ProcessedRow) (msg : String),
    rows[j]? = some r → exc (i + j) = some msg →
    (r.rowIndex, [msg]) ∈ (runRows exc aid now tb rows i st).results.errors := by
  intro rows
  induction rows with
  | nil => intro i st j r msg hj _; simp at hj
  | cons r0 rs ih =>
    intro i st j r msg hj hmsg
    cases j with
    | zero =>
      rw [List.getElem?_cons_zero] at hj
      simp only [Option.some.injEq] at hj
      subst hj
      simp only [runRows]
      refine runRows_errors_mono exc aid now tb rs (i + 1) _ _ ?_
      have hmsg' : exc i = some msg := by simpa using hmsg
      cases hdata : r0.data with
      | some rd =>
        exact (processRow_counts exc aid now tb i r0 st rd hdata).2.2 msg hmsg'
      | none =>
        simp only [processRow, hmsg']
        simp
    | succ k =>
      rw [List.getElem?_cons_succ] at hj
      simp only [runRows]
      have : i + (k + 1) = (i + 1) + k := by omega
      rw [this] at hmsg
      exact ih (i + 1) _ k r msg hj hmsg

/-- C3 (confirmed): per-row fault isolation of `importCSVData`.  With an
exception oracle injecting a store failure at any set of valid-row
positions: every failing row contributes an error entry carrying its
1-based `rowIndex` and the exception message and one skip, and every
non-failing valid row is still processed to completion (it increments
exactly one of `imported`/`updated`) — a single row failure never aborts
the import. -/
theorem importCSVData_fault_isolation (exc : Nat → Option String) (aid : String)
    (now : CDate) (s0 : Store) (rows : List ProcessedRow) :
    ((importCSVData exc aid now s0 rows).results.imported +
       (importCSVData exc aid now s0 rows).results.updated =
     (List.range (rows.filter (fun r => r.valid && r.data.isSome)).length).countP
       (fun j => (exc j).isNone)) ∧
    (∀ (j : Nat) (r : ProcessedRow) (msg : String),
      (rows.filter (fun r => r.valid && r.data.isSome))[j]? = some r →
      exc j = some msg →
      (r.rowIndex, [msg]) ∈ (importCSVData exc aid now s0 rows).results.errors) ∧
    ((importCSVData exc aid now s0 rows).results.skipped ≥
     (rows.filter (fun r => !r.valid)).length +
     (List.range (rows.filter (fun r => r.valid && r.data.isSome)).length).countP
       (fun j => (exc j).isSome)) := by
  have hall : ∀ r ∈ rows.filter (fun r => r.valid && r.data.isSome),
      r.data.isSome = true := by
    intro r hr
    have := (List.mem_filter.mp hr).2
    exact (Bool.and_eq_true _ _ |>.mp this).2
  have hc := runRows_counts exc aid now
    (((rows.filter (fun r => r.valid && r.data.isSome)).length + BATCH_SIZE / 2 - 1) /
      (BATCH_SIZE / 2)) (rows.filter (fun r => r.valid && r.data.isSome)) 0
    (initImportState s0 (rows.filter (fun r => !r.valid))) hall
  have hs := runRows_skips exc aid now
    (((rows.filter (fun r => r.valid && r.data.isSome)).length + BATCH_SIZE / 2 - 1) /
      (BATCH_SIZE / 2)) (rows.filter (fun r => r.valid && r.data.isSome)) 0
    (initImportState s0 (rows.filter (fun r => !r.valid))) hall
  have hm := runRows_failed_row_in_errors exc aid now
    (((rows.filter (fun r => r.valid && r.data.isSome)).length + BATCH_SIZE / 2 - 1) /
      (BATCH_SIZE / 2)) (rows.filter (fun r => r.valid && r.data.isSome)) 0
    (initImportState s0 (rows.filter (fun r => !r.valid)))
  simp only [initImportState, List.length_map] at hc hs
  simp only [importCSVData]
  split
  · refine ⟨by simpa using hc, ?_, by simpa using hs⟩
    intro j r msg hj hmsg
    have := hm j r msg hj (by simpa using hmsg)
    simpa using this
  · refine ⟨by simpa using hc, ?_, by simpa using hs⟩
    intro j r msg hj hmsg
    have := hm j r msg hj (by simpa using hmsg)
    simpa using this

/-- Witness for C3: with a store failure injected on the first of two
valid rows, that row lands in the error list under its 1-based index
with the failure message, and the other row still completes. -/
theorem importCSVData_fault_isolation_witness :
    (1, ["boom"]) ∈ (importCSVData excBoom "ag" nowJun Store.empty
      [rowJohn, rowJane]).results.errors ∧
    (importCSVData excBoom "ag" nowJun Store.empty [rowJohn, rowJane]).results.imported +
      (importCSVData excBoom "ag" nowJun Store.empty [rowJohn, rowJane]).results.updated
      = 1 := by
  constructor
  · exact (importCSVData_fault_isolation excBoom "ag" nowJun Store.empty
      [rowJohn, rowJane]).2.1 0 rowJohn "boom" (by decide) (by decide)
  · have h := (importCSVData_fault_isolation excBoom "ag" nowJun Store.empty
      [rowJohn, rowJane]).1
    rw [h]
    decide

/-! ### Claim C2: idempotence of re-imports -/

/-- Run 1 from a store with no committed customers or policies: every
row creates, nothing flushes, and the batch accumulates the expected
create operations. -/
theorem run1_loop (aid : String) (now : CDate) (tb : Nat) :
    ∀ (rows : List ProcessedRow) (i k : Nat) (st : ImportState),
    (∀ r ∈ rows, r.data.isSome = true) →
    st.store = ⟨[], [], k⟩ →
    st.batchOpCount + 2 * rows.length < 390 →
    (runRows noExc aid now tb rows i st).store = ⟨[], [], k + rows.length⟩ ∧
    (runRows noExc aid now tb rows i st).batchOpCount =
      st.batchOpCount + 2 * rows.length ∧
    (runRows noExc aid now tb rows i st).commits = st.commits ∧
    (runRows noExc aid now tb rows i st).batch =
      st.batch ++ expectedCreateOps aid (rowDatas rows) k := by
  intro rows
  induction rows with
  | nil =>
    intro i k st _ hs _
    refine ⟨by simp [runRows, hs], by simp [runRows], rfl, by simp [runRows, rowDatas, expectedCreateOps]⟩
  | cons r rest ih =>
    intro i k st hall hs hcnt
    obtain ⟨rd, hrd⟩ := Option.isSome_iff_exists.mp (hall r (List.mem_cons_self r rest))
    have hfound : findCustomerByNameAddressZip st.store rd.insuredName rd.address rd.zip =
        none := by rw [hs]; rfl
    have hdup : findExistingPolicy { st.store with nextId := st.store.nextId + 1 }
        st.store.nextId rd.policyTypeNormalized rd.effectiveDate rd.insuranceCompany
        rd.premium = none := by rw [hs]; rfl
    obtain ⟨a, b, c, -, -, -, -, -, hbatch⟩ := processRow_create_proj noExc aid now tb i r st
      rd rfl hrd hfound hdup (by simp [List.length_cons] at hcnt; omega)
    simp only [runRows]
    have hs' : (processRow noExc aid now tb i r st).store = ⟨[], [], k + 1⟩ := by
      rw [a, hs]
    obtain ⟨a2, b2, c2, d2⟩ := ih (i + 1) (k + 1) _
      (fun x hx => hall x (List.mem_cons_of_mem r hx)) hs'
      (by rw [b]; simp only [List.length_cons] at hcnt ⊢; omega)
    refine ⟨?_, ?_, by rw [c2, c], ?_⟩
    · rw [a2]
      have : k + 1 + rest.length = k + (r :: rest).length := by
        simp only [List.length_cons]; omega
      rw [this]
    · rw [b2, b]
      simp only [List.length_cons]
      omega
    · rw [d2, hbatch, hs]
      have hds : rowDatas (r :: rest) = rd :: rowDatas rest := by
        simp [rowDatas, List.filterMap_cons, hrd]
      rw [hds]
      show st.batch ++ [BatchOp.setCustomer (mkNewCustomer k rd)]
          ++ [BatchOp.setPolicy (mkNewPolicy aid k rd)]
          ++ expectedCreateOps aid (rowDatas rest) (k + 1) = _
      simp [expectedCreateOps, List.append_assoc]

theorem customersOf_ids_lt : ∀ (rds : List RowData) (k : Nat) (c : Customer),
    c ∈ customersOf rds k → k ≤ c.id ∧ c.id < k + rds.length := by
  intro rds
  induction rds with
  | nil => intro k c hc; cases hc
  | cons rd rest ih =>
    intro k c hc
    simp only [customersOf, List.mem_cons] at hc
    rcases hc with rfl | hc
    · refine ⟨?_, ?_⟩ <;> simp only [mkNewCustomer, List.length_cons] <;> omega
    · have := ih (k + 1) c hc
      simp only [List.length_cons]
      omega

/-- Applying the expected create operations: every id is fresh, so sets
append in order. -/
theorem applyBatch_expected (aid : String) :
    ∀ (rds : List RowData) (k m : Nat) (cs : List Customer) (ps : List PolicyDoc),
    (∀ c ∈ cs, c.id < k) →
    applyBatch ⟨cs, ps, m⟩ (expectedCreateOps aid rds k) =
      ⟨cs ++ customersOf rds k, ps ++ policiesOf aid rds k, m⟩ := by
  intro rds
  induction rds with
  | nil => intro k m cs ps _; simp [applyBatch, expectedCreateOps, customersOf, policiesOf]
  | cons rd rest ih =>
    intro k m cs ps hlt
    have hany : cs.any (fun c => c.id == (mkNewCustomer k rd).id) = false := by
      rw [Bool.eq_false_iff]
      intro hc
      rw [List.any_eq_true] at hc
      obtain ⟨c, hc, hb⟩ := hc
      have h1 := hlt c hc
      have h2 : c.id = (mkNewCustomer k rd).id := by simpa using hb
      rw [show (mkNewCustomer k rd).id = k from rfl] at h2
      omega
    have h1 : applyOp ⟨cs, ps, m⟩ (BatchOp.setCustomer (mkNewCustomer k rd)) =
        ⟨cs ++ [mkNewCustomer k rd], ps, m⟩ := by
      show (if (cs.any (fun c => c.id == (mkNewCustomer k rd).id)) then _ else _) = _
      rw [hany]
      simp
    have h2 : applyOp ⟨cs ++ [mkNewCustomer k rd], ps, m⟩
        (BatchOp.setPolicy (mkNewPolicy aid k rd)) =
        ⟨cs ++ [mkNewCustomer k rd], ps ++ [mkNewPolicy aid k rd], m⟩ := rfl
    show applyBatch ⟨cs, ps, m⟩
      (BatchOp.setCustomer (mkNewCustomer k rd) :: BatchOp.setPolicy (mkNewPolicy aid k rd)
        :: expectedCreateOps aid rest (k + 1)) = _
    simp only [applyBatch, List.foldl_cons]
    rw [show List.foldl applyOp = applyBatch from rfl]
    rw [show applyOp ⟨cs, ps, m⟩ (BatchOp.setCustomer (mkNewCustomer k rd)) =
      ⟨cs ++ [mkNewCustomer k rd], ps, m⟩ from h1]
    rw [show applyOp ⟨cs ++ [mkNewCustomer k rd], ps, m⟩
      (BatchOp.setPolicy (mkNewPolicy aid k rd)) =
      ⟨cs ++ [mkNewCustomer k rd], ps ++ [mkNewPolicy aid k rd], m⟩ from h2]
    rw [ih (k + 1) m (cs ++ [mkNewCustomer k rd]) (ps ++ [mkNewPolicy aid k rd])
      (by intro c hc
          rcases List.mem_append.mp hc with hc | hc
          · have := hlt c hc; omega
          · simp only [List.mem_singleton] at hc
            subst hc
            simp [mkNewCustomer])]
    simp [customersOf, policiesOf, List.append_assoc]

theorem customersOf_length : ∀ (rds : List RowData) (k : Nat),
    (customersOf rds k).length = rds.length := by
  intro rds
  induction rds with
  | nil => intro k; rfl
  | cons rd rest ih => intro k; simp [customersOf, ih]

theorem mem_customersOf : ∀ (rds : List RowData) (k : Nat) (c : Customer),
    c ∈ customersOf rds k →
    ∃ m, ∃ hm : m < rds.length, c = mkNewCustomer (k + m) rds[m] := by
  intro rds
  induction rds with
  | nil => intro k c hc; cases hc
  | cons rd rest ih =>
    intro k c hc
    simp only [customersOf, List.mem_cons] at hc
    rcases hc with rfl | hc
    · exact ⟨0, by simp, by simp⟩
    · obtain ⟨m, hm, rfl⟩ := ih (k + 1) c hc
      refine ⟨m + 1, by simp only [List.length_cons]; omega, ?_⟩
      have : k + 1 + m = k + (m + 1) := by omega
      rw [this]
      simp

theorem customersOf_getElem_mem : ∀ (rds : List RowData) (k j : Nat)
    (hj : j < rds.length), mkNewCustomer (k + j) rds[j] ∈ customersOf rds k := by
  intro rds
  induction rds with
  | nil => intro k j hj; simp at hj
  | cons rd rest ih =>
    intro k j hj
    cases j with
    | zero => simp [customersOf]
    | succ j' =>
      have hj' : j' < rest.length := by simp only [List.length_cons] at hj; omega
      have := ih (k + 1) j' hj'
      have harith : k + 1 + j' = k + (j' + 1) := by omega
      rw [harith] at this
      simp only [customersOf, List.getElem_cons_succ]
      exact List.mem_cons_of_mem _ this

theorem mem_policiesOf (aid : String) : ∀ (rds : List RowData) (k : Nat) (p : PolicyDoc),
    p ∈ policiesOf aid rds k →
    ∃ m, ∃ hm : m < rds.length, p = mkNewPolicy aid (k + m) rds[m] := by
  intro rds
  induction rds with
  | nil => intro k p hp; cases hp
  | cons rd rest ih =>
    intro k p hp
    simp only [policiesOf, List.mem_cons] at hp
    rcases hp with rfl | hp
    · exact ⟨0, by simp, by simp⟩
    · obtain ⟨m, hm, rfl⟩ := ih (k + 1) p hp
      refine ⟨m + 1, by simp only [List.length_cons]; omega, ?_⟩
      have : k + 1 + m = k + (m + 1) := by omega
      rw [this]
      simp

theorem policiesOf_filter_cid (aid : String) : ∀ (rds : List RowData) (k j : Nat)
    (hj : j < rds.length),
    (policiesOf aid rds k).filter (fun p => p.customerId == k + j) =
      [mkNewPolicy aid (k + j) rds[j]] := by
  intro rds
  induction rds with
  | nil => intro k j hj; simp at hj
  | cons rd rest ih =>
    intro k j hj
    cases j with
    | zero =>
      simp only [policiesOf, List.filter_cons]
      rw [if_pos (by simp [mkNewPolicy])]
      have htail : (policiesOf aid rest (k + 1)).filter (fun p => p.customerId == k + 0) =
          [] := by
        rw [List.filter_eq_nil]
        intro p hp
        obtain ⟨m, hm, rfl⟩ := mem_policiesOf aid rest (k + 1) p hp
        simp only [mkNewPolicy, beq_iff_eq]
        omega
      rw [htail]
      simp
    | succ j' =>
      have hj' : j' < rest.length := by simp only [List.length_cons] at hj; omega
      simp only [policiesOf, List.filter_cons]
      rw [if_neg (by simp only [mkNewPolicy, beq_iff_eq]; omega)]
      have := ih (k + 1) j' hj'
      have harith : k + 1 + j' = k + (j' + 1) := by omega
      rw [harith] at this
      rw [this]
      simp

theorem policyMatches_self (aid : String) (cid : Nat) (rd : RowData)
    (h : 0 < rd.premium.den) :
    policyMatches (mkNewPolicy aid cid rd) rd.policyTypeNormalized rd.effectiveDate
      rd.insuranceCompany rd.premium = true := by
  simp only [policyMatches, mkNewPolicy, beq_self_eq_true, Bool.true_and]
  simp only [JNum.sub, JNum.abs, JNum.ltB, hundredth, beq_self_eq_true, if_true]
  simp only [sub_self, abs_zero, zero_mul, decide_eq_true_eq]
  omega

/-- Run 2's duplicate scan over the committed policies of run 1: the
`j`-th row's policy is found under customer id `j`. -/
theorem run2_dup (aid : String) (rds : List RowData) (cs : List Customer) (n' : Nat)
    (j : Nat) (hj : j < rds.length) (hprem : 0 < rds[j].premium.den) :
    findExistingPolicy ⟨cs, policiesOf aid rds 0, n'⟩ j
      rds[j].policyTypeNormalized rds[j].effectiveDate rds[j].insuranceCompany
      rds[j].premium = some (mkNewPolicy aid j rds[j]) := by
  unfold findExistingPolicy
  have h0 : (0 : Nat) + j = j := by omega
  have hf := policiesOf_filter_cid aid rds 0 j hj
  rw [h0] at hf
  rw [show ((⟨cs, policiesOf aid rds 0, n'⟩ : Store).policies) = policiesOf aid rds 0
    from rfl, hf]
  simp only [List.find?]
  rw [policyMatches_self aid j rds[j] hprem]

/-- Run 2's customer lookup over the committed customers of run 1: the
`j`-th row resolves to exactly the customer created for it. -/
theorem run2_lookup (rds : List RowData)
    (hdist : rds.Pairwise (fun a b => tripleKey a ≠ tripleKey b))
    (hlen : rds.length ≤ 100) (ps : List PolicyDoc) (n' : Nat) (j : Nat)
    (hj : j < rds.length) (hrange : selfRange rds[j] = true) :
    findCustomerByNameAddressZip ⟨customersOf rds 0, ps, n'⟩
      rds[j].insuredName rds[j].address rds[j].zip = some (mkNewCustomer j rds[j]) := by
  unfold findCustomerByNameAddressZip
  simp only
  have htake : ∀ (pred : Customer → Bool),
      ((customersOf rds 0).filter pred).take 100 = (customersOf rds 0).filter pred := by
    intro pred
    exact List.take_of_length_le (le_trans (List.length_filter_le _ _)
      (by rw [customersOf_length]; exact hlen))
  rw [htake]
  have hj0 : mkNewCustomer j rds[j] ∈ customersOf rds 0 := by
    have := customersOf_getElem_mem rds 0 j hj
    simpa using this
  have hmem : mkNewCustomer j rds[j] ∈ (customersOf rds 0).filter
      (fun c => strLe (strTake 20 (jsTrim rds[j].insuredName)) c.fullName &&
        strLe c.fullName (strTake 20 (jsTrim rds[j].insuredName) ++ uF8FF)) := by
    refine List.mem_filter.mpr ⟨hj0, ?_⟩
    exact hrange
  have hmatch : (fun c =>
      normalizeAddressC c.fullName == normalizeAddressC rds[j].insuredName &&
      normalizeAddressC c.address.street == normalizeAddressC rds[j].address &&
      normalizeAddressC c.address.zip == normalizeAddressC rds[j].zip)
      (mkNewCustomer j rds[j]) = true := by
    simp [mkNewCustomer]
  have hsome : (List.find? (fun c =>
      normalizeAddressC c.fullName == normalizeAddressC rds[j].insuredName &&
      normalizeAddressC c.address.street == normalizeAddressC rds[j].address &&
      normalizeAddressC c.address.zip == normalizeAddressC rds[j].zip)
      ((customersOf rds 0).filter
        (fun c => strLe (strTake 20 (jsTrim rds[j].insuredName)) c.fullName &&
          strLe c.fullName (strTake 20 (jsTrim rds[j].insuredName) ++ uF8FF)))).isSome :=
    List.find?_isSome.mpr ⟨mkNewCustomer j rds[j], hmem, hmatch⟩
  obtain ⟨c, hc⟩ := Option.isSome_iff_exists.mp hsome
  have hcmem : c ∈ customersOf rds 0 := (List.mem_filter.mp (List.mem_of_find?_eq_some hc)).1
  have hcpred := List.find?_some hc
  obtain ⟨m, hm, rfl⟩ := mem_customersOf rds 0 c hcmem
  have hkey : tripleKey rds[m] = tripleKey rds[j] := by
    simp only [mkNewCustomer, Bool.and_eq_true, beq_iff_eq] at hcpred
    simp only [tripleKey, Prod.mk.injEq]
    exact ⟨hcpred.1.1, hcpred.1.2, hcpred.2⟩
  have hmj : m = j := by
    by_contra hne
    rcases Nat.lt_or_ge m j with hlt | hge
    · exact (List.pairwise_iff_getElem.mp hdist m j hm hj hlt) hkey
    · have hlt' : j < m := by omega
      exact (List.pairwise_iff_getElem.mp hdist j m hj hm hlt') hkey.symm
  subst hmj
  rw [hc]
  simp

/-- The final commit of `importCSVData` leaves the accumulated results
untouched in either branch. -/
theorem flushFinal_results (st : ImportState) (tb n : Nat) :
    (if st.batchOpCount > 0 then
      { st with store := applyBatch st.store st.batch
                commits := st.commits ++ [st.batchOpCount]
                progressCalls := st.progressCalls ++ [(st.batchNumber, tb, n)]
                batch := []
                batchOpCount := 0 }
     else st).results = st.results := by
  split <;> rfl

/-- When operations are pending, the final commit applies them to the
committed store. -/
theorem flushFinal_store (st : ImportState) (tb n : Nat) (h : st.batchOpCount > 0) :
    (if st.batchOpCount > 0 then
      { st with store := applyBatch st.store st.batch
                commits := st.commits ++ [st.batchOpCount]
                progressCalls := st.progressCalls ++ [(st.batchNumber, tb, n)]
                batch := []
                batchOpCount := 0 }
     else st).store = applyBatch st.store st.batch := by
  rw [if_pos h]

/-- Run 2 invariant: when every row finds its committed customer and a
committed duplicate policy, each row adds one to `updated` and one to
`skipped` and touches nothing else. -/
theorem run2_loop (aid : String) (now : CDate) (tb : Nat) (S : Store) :
    ∀ (rows2 : List ProcessedRow) (i : Nat) (st : ImportState),
    (∀ r ∈ rows2, ∃ rd c q, r.data = some rd ∧
        findCustomerByNameAddressZip S rd.insuredName rd.address rd.zip = some c ∧
        findExistingPolicy S c.id rd.policyTypeNormalized rd.effectiveDate
          rd.insuranceCompany rd.premium = some q) →
    st.store = S →
    st.batchOpCount + rows2.length < 390 →
    (runRows noExc aid now tb rows2 i st).results.imported = st.results.imported ∧
    (runRows noExc aid now tb rows2 i st).results.updated =
      st.results.updated + rows2.length ∧
    (runRows noExc aid now tb rows2 i st).results.skipped =
      st.results.skipped + rows2.length ∧
    (runRows noExc aid now tb rows2 i st).results.errors = st.results.errors ∧
    (runRows noExc aid now tb rows2 i st).batchOpCount =
      st.batchOpCount + rows2.length ∧
    (runRows noExc aid now tb rows2 i st).store = S := by
  intro rows2
  induction rows2 with
  | nil =>
    intro i st _ hs _
    exact ⟨rfl, by simp [runRows], by simp [runRows], rfl, by simp [runRows],
      by simp [runRows, hs]⟩
  | cons r rest ih =>
    intro i st hall hs hcnt
    obtain ⟨rd, c, q, hrd, hfound, hdup⟩ := hall r (List.mem_cons_self r rest)
    have hfound' : findCustomerByNameAddressZip st.store rd.insuredName rd.address
        rd.zip = some c := by rw [hs]; exact hfound
    have hdup' : findExistingPolicy st.store c.id rd.policyTypeNormalized
        rd.effectiveDate rd.insuranceCompany rd.premium = some q := by
      rw [hs]; exact hdup
    simp only [List.length_cons] at hcnt
    obtain ⟨pst, pcnt, -, pimp, pupd, pskp, perr, -⟩ :=
      processRow_update_skip_proj noExc aid now tb i r st rd c q rfl hrd hfound' hdup'
        (by omega)
    rw [show runRows noExc aid now tb (r :: rest) i st =
      runRows noExc aid now tb rest (i + 1) (processRow noExc aid now tb i r st)
      from rfl]
    obtain ⟨qimp, qupd, qskp, qerr, qcnt, qsto⟩ :=
      ih (i + 1) (processRow noExc aid now tb i r st)
        (fun r' hr' => hall r' (List.mem_cons_of_mem r hr'))
        (pst.trans hs)
        (by rw [pcnt]; omega)
    refine ⟨?_, ?_, ?_, ?_, ?_, qsto⟩
    · rw [qimp, pimp]
    · rw [qupd, pupd, List.length_cons]; omega
    · rw [qskp, pskp, List.length_cons]; omega
    · rw [qerr, perr]
    · rw [qcnt, pcnt, List.length_cons]; omega

/-- C2, amended.  Re-importing the identical all-valid file after a fully
committed first run from an empty store — rows whose (name, street, zip)
triples are pairwise distinct under exact normalization, at most 100 rows
(the lookup query's result limit), premiums with positive denominators and
names inside their own search range — creates nothing: the second run has
`imported = 0`, `updated = rows.length` (every row matches the customer the
first run created) and `errors = []`.  But `skipped = rows.length` holds
only under the distinct-triples hypothesis; it is what the unconditional
claim gets wrong (see the counterexample). -/
theorem importCSVData_idempotent (aid : String) (now : CDate)
    (rows : List ProcessedRow)
    (hval : ∀ r ∈ rows, r.valid = true ∧ r.data.isSome = true)
    (hprem : ∀ rd ∈ rowDatas rows, 0 < rd.premium.den)
    (hrange : ∀ rd ∈ rowDatas rows, selfRange rd = true)
    (hdist : (rowDatas rows).Pairwise (fun a b => tripleKey a ≠ tripleKey b))
    (hlen : rows.length ≤ 100) :
    (importCSVData noExc aid now
        (importCSVData noExc aid now Store.empty rows).store rows).results.imported
      = 0 ∧
    (importCSVData noExc aid now
        (importCSVData noExc aid now Store.empty rows).store rows).results.updated
      = rows.length ∧
    (importCSVData noExc aid now
        (importCSVData noExc aid now Store.empty rows).store rows).results.skipped
      = rows.length ∧
    (importCSVData noExc aid now
        (importCSVData noExc aid now Store.empty rows).store rows).results.errors
      = [] := by
  by_cases h0 : rows = []
  · subst h0; exact ⟨rfl, rfl, rfl, rfl⟩
  have hfil : rows.filter (fun r => r.valid && r.data.isSome) = rows :=
    List.filter_eq_self.mpr (fun r hr => by
      simp [(hval r hr).1, (hval r hr).2])
  have hinv : rows.filter (fun r => !r.valid) = [] :=
    List.filter_eq_nil_iff.mpr (fun r hr => by simp [(hval r hr).1])
  have hlen' : (rowDatas rows).length ≤ 100 :=
    le_trans (List.length_filterMap_le _ _) hlen
  have hS : (importCSVData noExc aid now Store.empty rows).store =
      ⟨customersOf (rowDatas rows) 0, policiesOf aid (rowDatas rows) 0,
       rows.length⟩ := by
    simp only [importCSVData, hfil, hinv]
    obtain ⟨hst1, hcnt1, -, hbat1⟩ := run1_loop aid now
      ((rows.length + BATCH_SIZE / 2 - 1) / (BATCH_SIZE / 2)) rows 0 0
      (initImportState Store.empty []) (fun r hr => (hval r hr).2) rfl
      (by show 0 + 2 * rows.length < 390; omega)
    have hpos : (runRows noExc aid now
        ((rows.length + BATCH_SIZE / 2 - 1) / (BATCH_SIZE / 2)) rows 0
        (initImportState Store.empty [])).batchOpCount > 0 := by
      rw [hcnt1]
      show 0 + 2 * rows.length > 0
      have := List.length_pos.mpr h0
      omega
    rw [flushFinal_store _ _ _ hpos, hst1, hbat1]
    show applyBatch ⟨[], [], 0 + rows.length⟩
      ([] ++ expectedCreateOps aid (rowDatas rows) 0) = _
    rw [List.nil_append, applyBatch_expected aid (rowDatas rows) 0 (0 + rows.length)
      [] [] (by intro c hc; cases hc)]
    simp
  have hmemhyp : ∀ r ∈ rows, ∃ rd c q, r.data = some rd ∧
      findCustomerByNameAddressZip
        ⟨customersOf (rowDatas rows) 0, policiesOf aid (rowDatas rows) 0,
         rows.length⟩ rd.insuredName rd.address rd.zip = some c ∧
      findExistingPolicy
        ⟨customersOf (rowDatas rows) 0, policiesOf aid (rowDatas rows) 0,
         rows.length⟩ c.id rd.policyTypeNormalized rd.effectiveDate
        rd.insuranceCompany rd.premium = some q := by
    intro r hr
    obtain ⟨rd, hrd⟩ := Option.isSome_iff_exists.mp (hval r hr).2
    have hrdmem : rd ∈ rowDatas rows := List.mem_filterMap.mpr ⟨r, hr, hrd⟩
    obtain ⟨j, hj, hjeq⟩ := List.mem_iff_getElem.mp hrdmem
    refine ⟨rd, mkNewCustomer j rd, mkNewPolicy aid j rd, hrd, ?_, ?_⟩
    · have hl := run2_lookup (rowDatas rows) hdist hlen'
        (policiesOf aid (rowDatas rows) 0) rows.length j hj
        (by rw [hjeq]; exact hrange rd hrdmem)
      rw [hjeq] at hl
      exact hl
    · have hd := run2_dup aid (rowDatas rows) (customersOf (rowDatas rows) 0)
        rows.length j hj (by rw [hjeq]; exact hprem rd hrdmem)
      rw [hjeq] at hd
      exact hd
  rw [hS]
  simp only [importCSVData, hfil, hinv]
  obtain ⟨qimp, qupd, qskp, qerr, -, -⟩ := run2_loop aid now
    ((rows.length + BATCH_SIZE / 2 - 1) / (BATCH_SIZE / 2))
    ⟨customersOf (rowDatas rows) 0, policiesOf aid (rowDatas rows) 0, rows.length⟩
    rows 0
    (initImportState
      ⟨customersOf (rowDatas rows) 0, policiesOf aid (rowDatas rows) 0,
       rows.length⟩ [])
    hmemhyp rfl (by show 0 + rows.length < 390; omega)
  rw [flushFinal_results]
  refine ⟨?_, ?_, ?_, ?_⟩
  · exact qimp.trans rfl
  · exact qupd.trans (by show 0 + rows.length = rows.length; omega)
  · exact qskp.trans (by show 0 + rows.length = rows.length; omega)
  · exact qerr.trans rfl

/-- C2 witness: two distinct-triple rows re-imported after a committed
first run give imported 0, updated 2, skipped 2, no errors. -/
theorem importCSVData_idempotent_witness :
    (importCSVData noExc "ag" nowJun
        (importCSVData noExc "ag" nowJun Store.empty [rowJohn, rowJane]).store
        [rowJohn, rowJane]).results.imported = 0 ∧
    (importCSVData noExc "ag" nowJun
        (importCSVData noExc "ag" nowJun Store.empty [rowJohn, rowJane]).store
        [rowJohn, rowJane]).results.updated = 2 ∧
    (importCSVData noExc "ag" nowJun
        (importCSVData noExc "ag" nowJun Store.empty [rowJohn, rowJane]).store
        [rowJohn, rowJane]).results.skipped = 2 ∧
    (importCSVData noExc "ag" nowJun
        (importCSVData noExc "ag" nowJun Store.empty [rowJohn, rowJane]).store
        [rowJohn, rowJane]).results.errors = [] := by
  have h := importCSVData_idempotent "ag" nowJun [rowJohn, rowJane]
    (by decide) (by decide) (by decide) (by decide) (by decide)
  simpa using h

/-- C2 counterexample: two rows sharing the exact-normalized
(name, street, zip) triple but carrying different policies.  The first run
creates two duplicate customers; on re-import both rows resolve to the
first customer, whose subcollection holds only the first policy, so only
one row is skipped as a duplicate — the claimed `skipped = 2` fails (the
second row's policy is created a second time under the first customer). -/
theorem importCSVData_not_idempotent :
    (importCSVData noExc "ag" nowJun
        (importCSVData noExc "ag" nowJun Store.empty [rowJohn, rowJohnHo]).store
        [rowJohn, rowJohnHo]).results.imported = 0 ∧
    (importCSVData noExc "ag" nowJun
        (importCSVData noExc "ag" nowJun Store.empty [rowJohn, rowJohnHo]).store
        [rowJohn, rowJohnHo]).results.updated = 2 ∧
    (importCSVData noExc "ag" nowJun
        (importCSVData noExc "ag" nowJun Store.empty [rowJohn, rowJohnHo]).store
        [rowJohn, rowJohnHo]).results.skipped = 1 := by
  refine ⟨by decide, by decide, by decide⟩

/-! ### Claim C6: `addOneYear` / `subtractOneYear` on Feb 29 -/

/-- C6 (code bug): the spec (and the function's own doc comment,
"handles leap years") requires Feb 29 → Feb 28 under a one-year shift,
but `setFullYear` keeps the month/day fields and the engine rolls
Feb 29 of a non-leap target year over to Mar 1: `addOneYear` maps
2024-02-29 to 2025-03-01, and `subtractOneYear` maps it to 2023-03-01. -/
theorem addOneYear_feb29_rolls_over :
    addOneYear ⟨2024, 2, 29⟩ = ⟨2025, 3, 1⟩ ∧
    subtractOneYear ⟨2024, 2, 29⟩ = ⟨2023, 3, 1⟩ ∧
    addOneYear ⟨2024, 2, 29⟩ ≠ ⟨2025, 2, 28⟩ ∧
    subtractOneYear ⟨2024, 2, 29⟩ ≠ ⟨2023, 2, 28⟩ := by decide

end MYCRM
